import Mathlib

/-!
# Verification of the `datashape.coretypes` type-system core

A shallow embedding, in Lean 4, of the parts of
`src/datashape/coretypes.py` that the specification's claims are about:

* the monotype hierarchy (`Mono` below) with the kind tags (`cls`
  attribute in Python: `DIMENSION = 1`, `MEASURE = 2`),
* the validating constructors (`Fixed.__init__`, `TypeVar.__init__`,
  `String.__init__`, `DataShape.__init__`, `Record.__init__`,
  `Option.__init__`) modelled as `Except`-returning functions,
* the laundering normalisation `_launder`,
* the shape/measure algebra (`sigform`, `subarray`, `_subshape`),
* Python's `==`/`hash` semantics over these objects (including CPython's
  tuple-hash algorithm, with the address-based hashes of type objects and
  the randomised hashes of strings kept as parameters of the model),
* the numpy layout bridge `to_numpy` / `from_numpy` (the behaviour of the
  numpy dtype objects involved is modelled from numpy's documented
  semantics, since numpy is an external library).

Python exception *messages* are elided; only the exception class is
modelled, which is what the claims talk about.
-/

set_option maxRecDepth 8192
set_option maxHeartbeats 2000000

namespace Datashape

/-- The Python exception classes raised by the code under study.
`notNumpyCompatible` models `coretypes.NotNumpyCompatible`. -/
inductive PyErr where
  | typeError
  | valueError
  | indexError
  | keyError
  | zeroDivisionError
  | notImplementedError
  | notNumpyCompatible
  | attributeError
  deriving DecidableEq, Repr

instance {ε α : Type} [DecidableEq ε] [DecidableEq α] :
    DecidableEq (Except ε α) := fun x y =>
  match x, y with
  | .ok a, .ok b =>
    if h : a = b then .isTrue (by rw [h]) else .isFalse (by simp [h])
  | .error e, .error f =>
    if h : e = f then .isTrue (by rw [h]) else .isFalse (by simp [h])
  | .ok _, .error _ => .isFalse (by simp)
  | .error _, .ok _ => .isFalse (by simp)

/-- Classes of unit types: `DIMENSION = 1`, `MEASURE = 2` (lines 22-23). -/
inductive Kind where
  | dimension
  | measure
  deriving DecidableEq, Repr

/-- The possible results of `getattr(x, 'cls', default)` on a type node:
the attribute may be absent (most bare `Mono`/`Unit` subclasses do not set
`cls`), may be the literal `None` (`IntegerConstant` sets `cls = None`),
or may be one of the two kind tags. -/
inductive ClsAttr where
  | absent
  | pyNone
  | kind (k : Kind)
  deriving DecidableEq, Repr

/-- The monotype hierarchy of `coretypes.py`, restricted to the node
classes the claims exercise.  Corresponds to the Python classes:
`Fixed` (val stored after `operator.index`, guaranteed non-negative by the
constructor, hence `Nat`), `Var`, `TypeVar`, `IntegerConstant`,
`StringConstant`, `CType` (name, itemsize, alignment), `String`
(fixlen, canonical encoding), `Date`, `DateTime` (optional tz),
`Record` (the laundered (name, type) field tuple), `Option`
(written `optionT` since `option` collides with Lean), and `DataShape`
(the laundered parameter tuple; the `name` attribute of a named
`DataShape` is *not* part of `parameters`, does not participate in
equality or hashing, and is modelled separately via the registry state in
`dataShapeInitReg`). -/
inductive Mono where
  | fixed (val : Nat)
  | var
  | typevar (symbol : String)
  | iconst (val : Int)
  | sconst (val : String)
  | ctype (name : String) (itemsize : Nat) (alignment : Nat)
  | strM (fixlen : Option Int) (encoding : String)
  | date
  | time (tz : Option String)
  | datetime (tz : Option String)
  | bytes
  | json
  | null
  | record (fields : List (String × Mono))
  | optionT (ty : Mono)
  | dshape (params : List Mono)
  deriving Repr

namespace Mono

mutual

/-- Structural (Lean-level) boolean equality on the embedded node type;
used only to furnish decidable equality for the embedding. -/
def beq : Mono → Mono → Bool
  | .fixed a, .fixed b => a == b
  | .var, .var => true
  | .typevar a, .typevar b => a == b
  | .iconst a, .iconst b => a == b
  | .sconst a, .sconst b => a == b
  | .ctype n i a, .ctype n' i' a' => n == n' && i == i' && a == a'
  | .strM f e, .strM f' e' => f == f' && e == e'
  | .date, .date => true
  | .time t, .time t' => t == t'
  | .datetime t, .datetime t' => t == t'
  | .bytes, .bytes => true
  | .json, .json => true
  | .null, .null => true
  | .record fs, .record gs => beqFields fs gs
  | .optionT a, .optionT b => beq a b
  | .dshape ps, .dshape qs => beqList ps qs
  | _, _ => false

def beqList : List Mono → List Mono → Bool
  | [], [] => true
  | a :: as, b :: bs => beq a b && beqList as bs
  | _, _ => false

def beqFields : List (String × Mono) → List (String × Mono) → Bool
  | [], [] => true
  | (n, t) :: as, (m, u) :: bs => n == m && beq t u && beqFields as bs
  | _, _ => false

end

mutual

theorem beq_imp_eq : ∀ a b : Mono, beq a b = true → a = b
  | .fixed a, .fixed b, h => by simpa [beq] using h
  | .var, .var, _ => rfl
  | .typevar a, .typevar b, h => by simpa [beq] using h
  | .iconst a, .iconst b, h => by simpa [beq] using h
  | .sconst a, .sconst b, h => by simpa [beq] using h
  | .ctype n i a, .ctype n' i' a', h => by
      simp only [beq, Bool.and_eq_true, beq_iff_eq] at h
      simp [h.1.1, h.1.2, h.2]
  | .strM f e, .strM f' e', h => by
      simp only [beq, Bool.and_eq_true, beq_iff_eq] at h
      simp [h.1, h.2]
  | .date, .date, _ => rfl
  | .time t, .time t', h => by simpa [beq] using h
  | .datetime t, .datetime t', h => by simpa [beq] using h
  | .bytes, .bytes, _ => rfl
  | .json, .json, _ => rfl
  | .null, .null, _ => rfl
  | .record fs, .record gs, h => by
      simp only [beq] at h
      simp [beqFields_imp_eq fs gs h]
  | .optionT a, .optionT b, h => by
      simp only [beq] at h
      simp [beq_imp_eq a b h]
  | .dshape ps, .dshape qs, h => by
      simp only [beq] at h
      simp [beqList_imp_eq ps qs h]

theorem beqList_imp_eq : ∀ as bs : List Mono, beqList as bs = true → as = bs
  | [], [], _ => rfl
  | a :: as, b :: bs, h => by
      simp only [beqList, Bool.and_eq_true] at h
      simp [beq_imp_eq a b h.1, beqList_imp_eq as bs h.2]

theorem beqFields_imp_eq :
    ∀ as bs : List (String × Mono), beqFields as bs = true → as = bs
  | [], [], _ => rfl
  | (n, t) :: as, (m, u) :: bs, h => by
      simp only [beqFields, Bool.and_eq_true, beq_iff_eq] at h
      simp [h.1.1, beq_imp_eq t u h.1.2, beqFields_imp_eq as bs h.2]

end

mutual

theorem beq_refl : ∀ a : Mono, beq a a = true
  | .fixed _ => by simp [beq]
  | .var => rfl
  | .typevar _ => by simp [beq]
  | .iconst _ => by simp [beq]
  | .sconst _ => by simp [beq]
  | .ctype _ _ _ => by simp [beq]
  | .strM _ _ => by simp [beq]
  | .date => rfl
  | .time _ => by simp [beq]
  | .datetime _ => by simp [beq]
  | .bytes => rfl
  | .json => rfl
  | .null => rfl
  | .record fs => by simp only [beq]; exact beqFields_refl fs
  | .optionT a => by simp only [beq]; exact beq_refl a
  | .dshape ps => by simp only [beq]; exact beqList_refl ps

theorem beqList_refl : ∀ as : List Mono, beqList as as = true
  | [] => rfl
  | a :: as => by
      simp only [beqList, Bool.and_eq_true]
      exact ⟨beq_refl a, beqList_refl as⟩

theorem beqFields_refl : ∀ as : List (String × Mono), beqFields as as = true
  | [] => rfl
  | (n, t) :: as => by
      simp only [beqFields, Bool.and_eq_true, beq_iff_eq]
      exact ⟨⟨by simp, beq_refl t⟩, beqFields_refl as⟩

end

instance : DecidableEq Mono := fun a b =>
  decidable_of_iff (beq a b = true)
    ⟨beq_imp_eq a b, fun h => h ▸ beq_refl a⟩

/-- `getattr(x, 'cls', ...)`: which nodes carry which `cls` attribute.
`Fixed.cls = Var.cls = DIMENSION`; `CType.cls = String.cls = Date.cls =
DateTime.cls = Record.cls = MEASURE`; `IntegerConstant.cls = None`
(line 201); `TypeVar`, `StringConstant`, `Option`, `DataShape` do not set
the attribute at all. -/
def clsAttr : Mono → ClsAttr
  | .fixed _ => .kind .dimension
  | .var => .kind .dimension
  | .typevar _ => .absent
  | .iconst _ => .pyNone
  | .sconst _ => .absent
  | .ctype _ _ _ => .kind .measure
  | .strM _ _ => .kind .measure
  | .date => .kind .measure
  | .time _ => .kind .measure
  | .datetime _ => .kind .measure
  | .bytes => .kind .measure
  | .json => .kind .measure
  | .null => .absent
  | .record _ => .kind .measure
  | .optionT _ => .absent
  | .dshape _ => .absent

/-- `getattr(x, 'cls', default)` with a `Kind` default, as used by the
`DataShape` constructor's two validation loops (lines 480, 485).
`None` compares unequal to both kind constants. -/
def getClsOr (x : Mono) (dflt : Kind) : Option Kind :=
  match x.clsAttr with
  | .absent => some dflt
  | .pyNone => none
  | .kind k => some k

end Mono

/-- `Fixed.__init__` (lines 749-756): `operator.index` then reject
negatives with `ValueError`.  Argument is an `Int` since Python callers
may pass any integer. -/
def mkFixed (i : Int) : Except PyErr Mono :=
  if i < 0 then .error .valueError else .ok (.fixed i.toNat)

/-- `TypeVar.__init__` (lines 794-798): the first character of the symbol
must satisfy `str.isupper`, else `ValueError`.  (For the ASCII symbols the
code builds, `Char.isUpper` coincides with Python's `str.isupper`.) -/
def mkTypeVar (symbol : String) : Except PyErr Mono :=
  match symbol.data with
  | [] => .error .indexError
  | c :: _ => if c.isUpper then .ok (.typevar symbol) else .error .valueError

/-- The canonical-encoding table `_canonical_string_encodings`
(lines 334-349). -/
def canonicalStringEncodings : List (String × String) :=
  [("A", "A"), ("ascii", "A"),
   ("U8", "U8"), ("utf-8", "U8"), ("utf_8", "U8"), ("utf8", "U8"),
   ("U16", "U16"), ("utf-16", "U16"), ("utf_16", "U16"), ("utf16", "U16"),
   ("U32", "U32"), ("utf-32", "U32"), ("utf_32", "U32"), ("utf32", "U32")]

/-- A positional argument to `String.__init__`: Python `None`, an `int`,
an `IntegerConstant`, a `str`, or a `StringConstant`. -/
inductive SArg where
  | none
  | int (n : Int)
  | iconst (n : Int)
  | str (s : String)
  | sconst (s : String)
  deriving DecidableEq, Repr

/-- `String.__init__(fixlen=None, encoding=None)` (lines 357-400): the
four accepted call shapes, the `ValueError` on anything else, then the
encoding-validation / canonicalisation steps. -/
def mkString (fixlen : SArg) (encoding : SArg) : Except PyErr Mono := do
  let (fl, enc) ←
    match fixlen, encoding with
    | .none, .none => pure ((Option.none : Option Int), "U8")
    | .int n, .none => pure (some n, "U8")
    | .iconst n, .none => pure (some n, "U8")
    | .str s, .none => pure (Option.none, s)
    | .sconst s, .none => pure (Option.none, s)
    | .int n, .str s => pure (some n, s)
    | .int n, .sconst s => pure (some n, s)
    | .iconst n, .str s => pure (some n, s)
    | .iconst n, .sconst s => pure (some n, s)
    | _, _ => .error .valueError
  match (canonicalStringEncodings.find? (fun p => p.1 = enc)) with
  | Option.none => .error .valueError
  | some p => pure (.strM fl p.2)

/-- `Time`/`DateTime.__init__` tz validation is not needed by the claims;
`DateTime(tz)` with a string-or-None tz always succeeds (lines 284-289). -/
def mkDateTime (tz : Option String) : Mono := .datetime tz

/-! ## The built-in type registry

`Type._registry` as it stands after the module body has executed
(lines 978-1079).  `CType.__init__` registers each scalar under its own
name; the explicit `Type.register` calls add the aliases.  On the
modelled platform (64-bit Linux) `ctypes.alignment` gives the familiar
x86-64 alignments, `c_long`/`c_void_p` are 8 bytes wide, and
`sizeof(py_object) = 8`.  In Python 3 the `__metaclass__ = Type`
attribute is inert, so class names are never auto-registered; only the
instance registrations below happen. -/

def bool_ : Mono := .ctype "bool" 1 1
def char : Mono := .ctype "char" 1 1
def int8 : Mono := .ctype "int8" 1 1
def int16 : Mono := .ctype "int16" 2 2
def int32 : Mono := .ctype "int32" 4 4
def int64 : Mono := .ctype "int64" 8 8
def uint8 : Mono := .ctype "uint8" 1 1
def uint16 : Mono := .ctype "uint16" 2 2
def uint32 : Mono := .ctype "uint32" 4 4
def uint64 : Mono := .ctype "uint64" 8 8
def float16 : Mono := .ctype "float16" 2 2
def float32 : Mono := .ctype "float32" 4 4
def float64 : Mono := .ctype "float64" 8 8
def complex_float32 : Mono := .ctype "complex[float32]" 8 4
def complex_float64 : Mono := .ctype "complex[float64]" 16 8
def void : Mono := .ctype "void" 0 1
def pyobj : Mono := .ctype "object" 8 8
def date_ : Mono := .date
def time_ : Mono := .time Option.none
def datetime_ : Mono := .datetime Option.none
def bytes_ : Mono := .bytes
def string : Mono := .strM Option.none "U8"
def var : Mono := .var

/-- The registry contents at the end of module initialisation, in
registration order.  (Dict insertion order; there are no duplicate
keys, so the association-list view is exact.) -/
def builtinRegistry : List (String × Mono) :=
  [("bool", bool_), ("char", char),
   ("int8", int8), ("int16", int16), ("int32", int32), ("int64", int64),
   ("int", int32),
   ("uint8", uint8), ("uint16", uint16), ("uint32", uint32),
   ("uint64", uint64),
   ("float16", float16), ("float32", float32), ("float64", float64),
   ("real", float64),
   ("complex[float32]", complex_float32),
   ("complex[float64]", complex_float64),
   ("complex64", complex_float32), ("complex128", complex_float64),
   ("date", date_), ("time", time_), ("datetime", datetime_),
   ("null", .null),
   ("intptr", int64), ("uintptr", uint64),
   ("void", void), ("object", pyobj),
   ("float", float32), ("double", float64),
   ("bytes", bytes_),
   ("string", string)]

/-- Registry lookup, `Type.lookup_type` / `Type._registry[name]`
(lines 45-47): a plain dict access, `KeyError` when absent. -/
def lookupType (reg : List (String × Mono)) (name : String) :
    Except PyErr Mono :=
  match reg.find? (fun p => p.1 = name) with
  | Option.none => .error .keyError
  | some p => .ok p.2

/-- `Type.register(name, type)` (lines 36-43): raises `TypeError` when
the name is already bound, otherwise adds the binding. -/
def typeRegister (reg : List (String × Mono)) (name : String) (t : Mono) :
    Except PyErr (List (String × Mono)) :=
  if (reg.find? (fun p => p.1 = name)).isSome then .error .typeError
  else .ok (reg ++ [(name, t)])

/-- A raw dict write `Type._registry[name] = t`, as performed directly by
`DataShape.__init__` (line 497): overwrites silently.  (Modelled on the
association list by shadowing-free replacement.) -/
def registrySet (reg : List (String × Mono)) (name : String) (t : Mono) :
    List (String × Mono) :=
  if (reg.find? (fun p => p.1 = name)).isSome then
    reg.map (fun p => if p.1 = name then (name, t) else p)
  else reg ++ [(name, t)]

/-! ## Laundering and the composite constructors -/

/-- A raw argument to a composite constructor: a Python `int`, a `str`,
or an already-built type node. -/
inductive DArg where
  | int (n : Int)
  | str (s : String)
  | mono (m : Mono)
  deriving DecidableEq, Repr

/-- Left-to-right effectful map, as `tuple(map(f, xs))` forces it in
Python: the first raise aborts the construction. -/
def mapExcept {α β : Type} (f : α → Except PyErr β) :
    List α → Except PyErr (List β)
  | [] => .ok []
  | a :: as => do
    let b ← f a
    let bs ← mapExcept f as
    .ok (b :: bs)

/-- Laundering of an already-built node (the `DArg.mono` case of
`_launder`): only a length-1 `DataShape` changes, unwrapping to its sole
element. -/
def launderMono (m : Mono) : Mono :=
  match m with
  | .dshape [p] => p
  | m => m

/-- `_launder(x)` (lines 848-867): ints become `Fixed` (which may raise
`ValueError` on negatives), strings are looked up in the registry
(`KeyError` when unknown), a length-1 `DataShape` is unwrapped to its
sole element, and anything else passes through unchanged. -/
def launder (reg : List (String × Mono)) : DArg → Except PyErr Mono
  | .int n => mkFixed n
  | .str s => lookupType reg s
  | .mono m => .ok (launderMono m)

/-- The two kind-validation loops of `DataShape.__init__`
(lines 480-488): the last laundered element must have `cls == MEASURE`
(default `MEASURE` when the attribute is absent), every earlier one must
have `cls == DIMENSION` (default `DIMENSION`); `TypeError` otherwise. -/
def dataShapeKindCheck (params : List Mono) : Except PyErr Unit := do
  match params.getLast? with
  | Option.none => .ok ()
  | some lastP =>
    if lastP.getClsOr .measure ≠ some .measure then .error .typeError
    else
      match params.dropLast.find? (fun d => d.getClsOr .dimension ≠ some .dimension) with
      | some _ => .error .typeError
      | Option.none => .ok ()

/-- `DataShape.__init__(*parameters)` without the `name` keyword
(lines 473-499): a single string argument is refused with `TypeError`
(string parsing is the parser's job), an empty argument list raises
`ValueError`, otherwise every argument is laundered left-to-right and the
kind checks run. -/
def mkDataShape (args : List DArg) : Except PyErr Mono := do
  match args with
  | [.str _] => .error .typeError
  | [] => .error .valueError
  | _ =>
    let params ← mapExcept (launder builtinRegistry) args
    dataShapeKindCheck params
    .ok (.dshape params)

/-- `DataShape.__init__` with the registry state made explicit, covering
the optional `name` keyword (lines 494-499): a truthy name stores the
instance *directly* into `Type._registry` (`self.__metaclass__._registry[name]
= self`), bypassing `Type.register` and silently overwriting any existing
binding.  Returns the constructed node and the post-state of the
registry. -/
def mkDataShapeReg (reg : List (String × Mono)) (args : List DArg)
    (name : Option String) : Except PyErr (Mono × List (String × Mono)) := do
  match args with
  | [.str _] => .error .typeError
  | [] => .error .valueError
  | _ =>
    let params ← mapExcept (launder reg) args
    dataShapeKindCheck params
    match name with
    | some nm =>
      if nm ≠ "" then .ok (.dshape params, registrySet reg nm (.dshape params))
      else .ok (.dshape params, reg)
    | Option.none => .ok (.dshape params, reg)

/-- `Record.__init__(fields)` (lines 894-906): each field's type is
laundered; order and names are preserved verbatim. -/
def mkRecord (fields : List (String × DArg)) : Except PyErr Mono := do
  let fs ← mapExcept (fun p => do
    let t ← launder builtinRegistry p.2
    pure (p.1, t)) fields
  .ok (.record fs)

/-- `Option.__init__(ds)` (lines 653-654): launders the wrapped type. -/
def mkOption (ds : DArg) : Except PyErr Mono := do
  let t ← launder builtinRegistry ds
  .ok (.optionT t)

/-! ## The shape/measure algebra -/

/-- Python's `l[k:]` on a list/tuple: negative `k` counts from the end,
clamped at zero. -/
def pySliceFrom {α : Type} (l : List α) (k : Int) : List α :=
  if k ≥ 0 then l.drop k.toNat
  else l.drop (max 0 ((l.length : Int) + k)).toNat

/-- `Mono.subarray` (lines 111-120) and `DataShape.subarray`
(lines 541-557).  A bare measure accepts only `leading <= 0` and returns
itself; a composite raises `IndexError` when `leading >=
len(self.parameters)`, returns `DataShape(self.parameters[-1])` when
`leading` is `len(parameters) - 1` or `-1`, and otherwise rebuilds
`DataShape(*self.parameters[leading:])` (running the full constructor
again, validation included). -/
def dsSubarray (ps : List Mono) (leading : Int) : Except PyErr Mono :=
  if leading ≥ (ps.length : Int) then .error .indexError
  else if leading = (ps.length : Int) - 1 ∨ leading = -1 then
    match ps.getLast? with
    | Option.none => .error .indexError
    | some lastP => mkDataShape [.mono lastP]
  else
    mkDataShape ((pySliceFrom ps leading).map .mono)

/-- `Mono.subarray` (lines 111-120), the bare-measure case: any
`leading >= 1` raises `IndexError`, otherwise the node itself. -/
def monoSubarray (m : Mono) (leading : Int) : Except PyErr Mono :=
  if leading ≥ 1 then .error .indexError else .ok m

def subarray : Mono → Int → Except PyErr Mono
  | .dshape ps, leading => dsSubarray ps leading
  | m, leading => monoSubarray m leading

/-- `n * x` for a Python `int` `n` and a type node `x`:
`int.__mul__` returns `NotImplemented`, so `Mono.__rmul__` /
`DataShape.__rmul__` run (lines 133-140, 559-562): the integer is wrapped
in `Fixed` and a `DataShape` is built with it in front. -/
def intMul (n : Int) (x : Mono) : Except PyErr Mono := do
  let f ← mkFixed n
  match x with
  | .dshape ps => mkDataShape (.mono f :: ps.map .mono)
  | m => mkDataShape [.mono f, .mono m]

/-- `a * b` for two type nodes (`Mono.__mul__`, lines 122-131): when `b`
is a `DataShape` this is `b.__rmul__(a) = DataShape(a, *b)`, otherwise
`DataShape(a, b)`. -/
def monoMul (a : Mono) (b : Mono) : Except PyErr Mono :=
  match b with
  | .dshape ps => mkDataShape (.mono a :: ps.map .mono)
  | m => mkDataShape [.mono a, .mono m]

/-- `DataShape.sigform` (lines 533-539): build
`[TypeVar('i%s' % n) for n in range(len(parameters) - 1)]`, append the
trailing measure, and run the `DataShape` constructor on the result.
`Mono.sigform` (lines 103-104) returns the node itself. -/
def sigform : Mono → Except PyErr Mono
  | .dshape ps => do
    let newparams ← mapExcept
      (fun n => mkTypeVar ("i" ++ toString n)) (List.range (ps.length - 1))
    match ps.getLast? with
    | Option.none => .error .indexError
    | some lastP => mkDataShape ((newparams ++ [lastP]).map .mono)
  | m => .ok m

/-- `int(x)` on a type node: only `Fixed` defines `__int__`/`__index__`
(lines 758-762); everything else raises `TypeError`. -/
def pyInt : Mono → Except PyErr Int
  | .fixed v => .ok (v : Int)
  | _ => .error .typeError

/-- Modelled from the spec: `predicates.isdimension`, imported by
`DataShape._subshape` from the `predicates` module, which is not among
the provided sources.  The spec's glossary defines a dimension as "a
shape-describing unit (fixed length, variable length, type variable,
ellipsis) preceding the measure"; over the embedded universe (which has
no ellipsis node, no claim exercising one) that is `Fixed`, `Var` and
`TypeVar`. -/
def isdimension : Mono → Bool
  | .fixed _ => true
  | .var => true
  | .typevar _ => true
  | _ => false

/-- An element of a Python `list` index (`ds.subshape[[1, 'name']]`):
an `int` or a `str`. -/
inductive LI where
  | i (n : Int)
  | s (name : String)
  deriving DecidableEq, Repr

/-- An index expression accepted by `DataShape._subshape`: an `int`, a
`str`, a `list` of ints/strings, a `slice`, or a tuple of per-axis
indices. -/
inductive PyIndex where
  | int (n : Int)
  | str (s : String)
  | list (items : List LI)
  | slice (start stop step : Option Int)
  | tup (ixs : List PyIndex)
  deriving Repr

/-- Python `l[n]` on a list/tuple: negative indices count from the end;
out of range raises `IndexError`. -/
def pyListGet {α : Type} (l : List α) (n : Int) : Except PyErr α :=
  let i := if n < 0 then n + l.length else n
  if h : 0 ≤ i ∧ i < (l.length : Int) then
    .ok (l.get ⟨i.toNat, by omega⟩)
  else .error .indexError

/-- Python `l[start:stop:step]` on a list, following
`slice.indices(len(l))`: step `0` raises `ValueError`; start/stop are
normalised relative to the length and direction, and the selected
positions are collected. -/
def pyListSlice {α : Type} (l : List α) (start stop step : Option Int) :
    Except PyErr (List α) := do
  let len : Int := l.length
  let st := step.getD 1
  if st = 0 then .error .valueError
  else
    let norm (v : Int) (lo hi : Int) : Int := max lo (min hi v)
    let startN : Int :=
      if st > 0 then
        match start with
        | Option.none => 0
        | some v => norm (if v < 0 then v + len else v) 0 len
      else
        match start with
        | Option.none => len - 1
        | some v => norm (if v < 0 then v + len else v) (-1) (len - 1)
    let stopN : Int :=
      if st > 0 then
        match stop with
        | Option.none => len
        | some v => norm (if v < 0 then v + len else v) 0 len
      else
        match stop with
        | Option.none => -1
        | some v => norm (if v < 0 then v + len else v) (-1) (len - 1)
    let count : Int :=
      if st > 0 then max 0 ((stopN - startN + st - 1) / st)
      else max 0 ((startN - stopN + (-st) - 1) / (-st))
    .ok ((List.range count.toNat).filterMap
      (fun k => l.get? (startN + k * st).toNat))

/-- `Record.__getitem__` (lines 931-932): `self.dict[key]`; building the
dict keeps the *last* binding of a duplicated name; a missing key raises
`KeyError`. -/
def recordGetItem (fs : List (String × Mono)) (s : String) :
    Except PyErr Mono :=
  match (fs.reverse.find? (fun p => p.1 = s)) with
  | Option.none => .error .keyError
  | some p => .ok p.2

/-- `index.start or 0` / `index.stop or ...`: Python `or` takes the
fallback when the operand is `None` *or* the (falsy) integer `0`. -/
def pyOrInt (v : Option Int) (d : Int) : Int :=
  match v with
  | some n => if n = 0 then d else n
  | Option.none => d

/-- `int(ceil(a / b))` on integers (line 630; exact ceiling of the
rational quotient — the float detour of `math.ceil` is exact at the
magnitudes involved); `b = 0` raises `ZeroDivisionError`. -/
def pyCeilDiv (a b : Int) : Except PyErr Int :=
  if b = 0 then .error .zeroDivisionError
  else .ok (-(Int.fdiv (-a) b))

/-- `index.stop or int(self[0])` (line 627): a `None` or zero stop falls
back to `int` of the leading dimension (`TypeError` unless `Fixed`). -/
def sliceStopValue (hd : Mono) (stop : Option Int) : Except PyErr Int :=
  match stop with
  | some n => if n = 0 then pyInt hd else pure n
  | Option.none => pyInt hd

/-- `count = int(ceil(count / index.step))` when a step is given
(lines 629-630), the unadjusted count otherwise. -/
def sliceStepAdjust (count : Int) : Option Int → Except PyErr Int
  | some st => pyCeilDiv count st
  | Option.none => pure count

mutual

/-- `DataShape._subshape(index)` (lines 569-640), the indexing algebra,
with the source's branch order preserved.  `self[0]` on an empty
parameter tuple raises `IndexError`; calling `_subshape` on a
non-`DataShape` is an `AttributeError`. -/
def dsSubshape : Mono → PyIndex → Except PyErr Mono
  | .dshape ps, ix =>
    match ps with
    | [] => .error .indexError
    | hd :: _ =>
      match ix with
      | .int n =>
        if isdimension hd then subarray (.dshape ps) 1
        else
          match hd with
          | .record fs => do
            let p ← pyListGet fs n
            .ok p.2
          | _ => .error .notImplementedError
      | .str s =>
        match hd with
        | .record fs => recordGetItem fs s
        | _ => .error .notImplementedError
      | .list items =>
        match hd with
        | .record fs => do
          let idxs ← mapExcept (fun it =>
            match it with
            | .s name =>
              match (fs.map Prod.fst).findIdx? (fun nm => nm = name) with
              | Option.none => .error PyErr.valueError
              | some i => .ok (i : Int)
            | .i n => .ok n) items
          let sel ← mapExcept (fun n => pyListGet fs n) idxs
          mkDataShape [.mono (.record sel)]
        | _ =>
          if isdimension hd then do
            let sub ← subarray (.dshape ps) 1
            intMul (items.length : Int) sub
          else .error .notImplementedError
      | .slice start stop step =>
        match hd with
        | .record fs => do
          let sel ← pyListSlice fs start stop step
          mkDataShape [.mono (.record sel)]
        | _ =>
          if isdimension hd then
            if (hd matches .fixed _) || stop ≠ Option.none then do
              let startv := pyOrInt start 0
              let stopv ← sliceStopValue hd stop
              let count := stopv - startv
              let count ← sliceStepAdjust count step
              let sub ← subarray (.dshape ps) 1
              intMul count sub
            else do
              let sub ← subarray (.dshape ps) 1
              monoMul Mono.var sub
          else .error .notImplementedError
      | .tup ixs => dsSubshapeTup (.dshape ps) ixs
  | _, _ => .error .attributeError

/-- The tuple branch of `_subshape` (lines 634-639):
`self._subshape(index[0])` for a 1-tuple, otherwise
`(self[0] * self.subarray(1)._subshape(index[1:]))._subshape(index[0])`.
An empty tuple recurses as `self.subarray(1)._subshape(())` until
`subarray` runs out of dimensions, so it always ends in `subarray`'s
`IndexError`; the embedding returns that error directly. -/
def dsSubshapeTup (m : Mono) : List PyIndex → Except PyErr Mono
  | [] => .error .indexError
  | [i] => dsSubshape m i
  | i0 :: rest => do
    match m with
    | .dshape (hd :: tl) => do
      let sub ← subarray (.dshape (hd :: tl)) 1
      let ds ← dsSubshapeTup sub rest
      let hdDs ← monoMul hd ds
      dsSubshape hdDs i0
    | .dshape [] => .error .indexError
    | _ => .error .attributeError

end

/-! ## Python equality over the hierarchy

`Mono.__eq__` (lines 75-76) is `type(self) == type(other) and self.info()
== other.info()`; tuple comparison of the parameters dispatches `==`
recursively to the elements, so the overridden equalities of `Fixed`
(lines 764-770: also equal to bare ints, unequal to everything else) and
of `IntegerConstant`/`StringConstant` (lines 209-215, 237-243: equal to
the matching bare literal or a constant of the same class, `TypeError`
otherwise) take effect, raises included, at any depth.  A `False`
answer from `__eq__` is final: Python consults the reflected operation
only on `NotImplemented`, which none of these methods return. -/

mutual

def pyEqMono : Mono → Mono → Except PyErr Bool
  | .fixed a, .fixed b => .ok (a = b)
  | .fixed _, _ => .ok false
  | .iconst a, .iconst b => .ok (a = b)
  | .iconst _, _ => .error .typeError
  | .sconst a, .sconst b => .ok (a = b)
  | .sconst _, _ => .error .typeError
  | .var, .var => .ok true
  | .typevar a, .typevar b => .ok (a = b)
  | .ctype n i a, .ctype n' i' a' => .ok (n = n' ∧ i = i' ∧ a = a')
  | .strM f e, .strM f' e' => .ok (f = f' ∧ e = e')
  | .date, .date => .ok true
  | .time t, .time t' => .ok (t = t')
  | .datetime t, .datetime t' => .ok (t = t')
  | .bytes, .bytes => .ok true
  | .json, .json => .ok true
  | .null, .null => .ok true
  | .record fs, .record gs => pyEqFields fs gs
  | .optionT a, .optionT b => pyEqMono a b
  | .dshape ps, .dshape qs => pyEqList ps qs
  | _, _ => .ok false

/-- Python tuple equality over parameter tuples: element comparisons run
left to right (propagating raises); a leftover suffix means `False`. -/
def pyEqList : List Mono → List Mono → Except PyErr Bool
  | [], [] => .ok true
  | a :: as, b :: bs => do
    let e ← pyEqMono a b
    if e then pyEqList as bs else .ok false
  | _, _ => .ok false

/-- Equality of `Record` field tuples: each `(name, type)` pair compares
name first (two strings), then the type; an unequal name short-circuits
the type comparison. -/
def pyEqFields : List (String × Mono) → List (String × Mono) →
    Except PyErr Bool
  | [], [] => .ok true
  | (n, t) :: as, (m, u) :: bs =>
    if n = m then do
      let e ← pyEqMono t u
      if e then pyEqFields as bs else .ok false
    else .ok false
  | _, _ => .ok false

end

/-- A Python value that can stand on either side of `==` in the claims:
a type node, a bare `int`, or a bare `str`. -/
inductive PyVal where
  | mono (m : Mono)
  | int (n : Int)
  | str (s : String)

/-- `a == b` over the mixed universe.  `int.__eq__`/`str.__eq__` return
`NotImplemented` on foreign operands, so the node's own `__eq__` decides
in both orders. -/
def pyEqVal : PyVal → PyVal → Except PyErr Bool
  | .mono a, .mono b => pyEqMono a b
  | .mono (.fixed v), .int n => .ok ((v : Int) = n)
  | .mono (.iconst v), .int n => .ok (v = n)
  | .mono (.sconst _), .int _ => .error .typeError
  | .mono _, .int _ => .ok false
  | .mono (.sconst v), .str s => .ok (v = s)
  | .mono (.iconst _), .str _ => .error .typeError
  | .mono (.fixed _), .str _ => .ok false
  | .mono _, .str _ => .ok false
  | .int n, .mono (.fixed v) => .ok ((v : Int) = n)
  | .int n, .mono (.iconst v) => .ok (v = n)
  | .int _, .mono (.sconst _) => .error .typeError
  | .int _, .mono _ => .ok false
  | .str s, .mono (.sconst v) => .ok (v = s)
  | .str _, .mono (.iconst _) => .error .typeError
  | .str _, .mono _ => .ok false
  | .int n, .int n' => .ok (n = n')
  | .str s, .str s' => .ok (s = s')
  | .int _, .str _ => .ok false
  | .str _, .int _ => .ok false

/-- `a != b` (`Mono.__ne__`, lines 78-79/95-96): the negation of `==`
(raises propagate). -/
def pyNeVal (a b : PyVal) : Except PyErr Bool := do
  let e ← pyEqVal a b
  .ok (!e)

/-! ## Python hashing

CPython's (3.8+) tuple hash: the xxHash-based combiner over the item
hashes.  Hash values are modelled in their unsigned 64-bit view (Python
compares the signed `Py_hash_t` values; equality is unaffected).  The
hash of a small non-negative `int` is the number itself (reduction
modulo `2^61 - 1`); the hash of a type object comes from its address and
the hash of a `str` from the per-process randomised SipHash, so both are
parameters of the model (`HashEnv`). -/

def xxPrime1 : Nat := 11400714785074694791
def xxPrime2 : Nat := 14029467366897019727
def xxPrime5 : Nat := 2870177450012600261

/-- `2^64`. -/
def M64 : Nat := 18446744073709551616

/-- Rotate a 64-bit value left by 31. -/
def rotl31 (x : Nat) : Nat := ((x * 2147483648) % M64) + (x / 8589934592)

/-- CPython's `tuplehash` over the element hashes. -/
def tupleHash (lanes : List Nat) : Nat :=
  let acc := lanes.foldl (fun acc lane =>
    let acc := (acc + lane * xxPrime2) % M64
    let acc := rotl31 acc
    (acc * xxPrime1) % M64) xxPrime5
  let acc := (acc + (Nat.xor lanes.length (Nat.xor xxPrime5 3527539))) % M64
  if acc = M64 - 1 then 1546275796 else acc

/-- CPython's hash of an `int`: reduction modulo the Mersenne prime
`2^61 - 1`, negated for negatives, with `-1` mapped to `-2`; shown in the
unsigned 64-bit view. -/
def pyIntHash (n : Int) : Nat :=
  let P : Nat := 2305843009213693951
  if n ≥ 0 then n.toNat % P
  else
    let r : Int := -((((-n).toNat % P : Nat) : Int))
    let r := if r = -1 then -2 else r
    (r.emod (M64 : Int)).toNat

/-- The implementation-dependent hash inputs: the (address-based) hash of
each class object, keyed by the class name; the randomised hash of `str`
objects; and the hash of `None`. -/
structure HashEnv where
  typeHash : String → Nat
  strHash : String → Nat
  noneHash : Nat

mutual

/-- `hash(x)` for a node `x`.  `Mono.__hash__` (lines 81-82) is
`hash(self.info())` = `hash((type(self), self.parameters))`;
`IntegerConstant`/`StringConstant` override it with `hash(self.val)`
(lines 217-218, 245-246); `Fixed` explicitly re-uses `Mono.__hash__`
(line 772). -/
def monoHash (env : HashEnv) : Mono → Nat
  | .fixed v => tupleHash [env.typeHash "Fixed", tupleHash [pyIntHash v]]
  | .var => tupleHash [env.typeHash "Var", tupleHash []]
  | .typevar s => tupleHash [env.typeHash "TypeVar", tupleHash [env.strHash s]]
  | .iconst v => pyIntHash v
  | .sconst s => env.strHash s
  | .ctype n i a =>
    tupleHash [env.typeHash "CType",
      tupleHash [env.strHash n, pyIntHash i, pyIntHash a]]
  | .strM fl e =>
    tupleHash [env.typeHash "String",
      tupleHash [(match fl with
                  | Option.none => env.noneHash
                  | some v => pyIntHash v), env.strHash e]]
  | .date => tupleHash [env.typeHash "Date", tupleHash []]
  | .time tz =>
    tupleHash [env.typeHash "Time",
      tupleHash [(match tz with
                  | Option.none => env.noneHash
                  | some s => env.strHash s)]]
  | .datetime tz =>
    tupleHash [env.typeHash "DateTime",
      tupleHash [(match tz with
                  | Option.none => env.noneHash
                  | some s => env.strHash s)]]
  | .bytes => tupleHash [env.typeHash "Bytes", tupleHash []]
  | .json => tupleHash [env.typeHash "JSON", tupleHash []]
  | .null => tupleHash [env.typeHash "Null", tupleHash []]
  | .record fs =>
    tupleHash [env.typeHash "Record", tupleHash [tupleHash (fieldsHash env fs)]]
  | .optionT t => tupleHash [env.typeHash "Option", tupleHash [monoHash env t]]
  | .dshape ps =>
    tupleHash [env.typeHash "DataShape", tupleHash (listHash env ps)]

def listHash (env : HashEnv) : List Mono → List Nat
  | [] => []
  | m :: ms => monoHash env m :: listHash env ms

def fieldsHash (env : HashEnv) : List (String × Mono) → List Nat
  | [] => []
  | (n, t) :: fs =>
    tupleHash [env.strHash n, monoHash env t] :: fieldsHash env fs

end

/-- `hash(v)` over the mixed universe. -/
def valHash (env : HashEnv) : PyVal → Nat
  | .mono m => monoHash env m
  | .int n => pyIntHash n
  | .str s => env.strHash s

/-! ## The numpy layout bridge

`to_numpy` / `from_numpy` (lines 1089-1166) and the `to_numpy_dtype`
methods they dispatch to.  numpy itself is an external library; its
dtype objects are modelled from numpy's documented behaviour: kinds
(`S`, `U`, `M`, `V`, ...), `itemsize` (a `U<n>` dtype stores `4n`
bytes), and `name` (`'S7' -> 'bytes56'`, `'U7' -> 'str224'`,
`'M8[us]' -> 'datetime64[us]'`, struct dtypes `'void<bits>'`). -/

/-- A numpy dtype, as far as the bridge observes one. -/
inductive NpDtype where
  | num (name : String)
  | bytesS (n : Nat)
  | unicodeU (n : Nat)
  | objectVlen
  | datetime64 (unit : String)
  | recordD (fields : List (String × NpDtype))
  deriving Repr

namespace NpDtype

mutual

def beqNp : NpDtype → NpDtype → Bool
  | .num s, .num s' => s == s'
  | .bytesS n, .bytesS n' => n == n'
  | .unicodeU n, .unicodeU n' => n == n'
  | .objectVlen, .objectVlen => true
  | .datetime64 u, .datetime64 u' => u == u'
  | .recordD fs, .recordD gs => beqNpFields fs gs
  | _, _ => false

def beqNpFields : List (String × NpDtype) → List (String × NpDtype) → Bool
  | [], [] => true
  | (n, d) :: as, (m, e) :: bs => n == m && beqNp d e && beqNpFields as bs
  | _, _ => false

end

mutual

theorem beqNp_imp_eq : ∀ a b : NpDtype, beqNp a b = true → a = b
  | .num s, .num s', h => by simpa [beqNp] using h
  | .bytesS n, .bytesS n', h => by simpa [beqNp] using h
  | .unicodeU n, .unicodeU n', h => by simpa [beqNp] using h
  | .objectVlen, .objectVlen, _ => rfl
  | .datetime64 u, .datetime64 u', h => by simpa [beqNp] using h
  | .recordD fs, .recordD gs, h => by
      simp only [beqNp] at h
      simp [beqNpFields_imp_eq fs gs h]

theorem beqNpFields_imp_eq :
    ∀ as bs : List (String × NpDtype), beqNpFields as bs = true → as = bs
  | [], [], _ => rfl
  | (n, d) :: as, (m, e) :: bs, h => by
      simp only [beqNpFields, Bool.and_eq_true, beq_iff_eq] at h
      simp [h.1.1, beqNp_imp_eq d e h.1.2, beqNpFields_imp_eq as bs h.2]

end

mutual

theorem beqNp_refl : ∀ a : NpDtype, beqNp a a = true
  | .num _ => by simp [beqNp]
  | .bytesS _ => by simp [beqNp]
  | .unicodeU _ => by simp [beqNp]
  | .objectVlen => rfl
  | .datetime64 _ => by simp [beqNp]
  | .recordD fs => by simp only [beqNp]; exact beqNpFields_refl fs

theorem beqNpFields_refl : ∀ as : List (String × NpDtype), beqNpFields as as = true
  | [] => rfl
  | (n, d) :: as => by
      simp only [beqNpFields, Bool.and_eq_true, beq_iff_eq]
      exact ⟨⟨by simp, beqNp_refl d⟩, beqNpFields_refl as⟩

end

instance : DecidableEq NpDtype := fun a b =>
  decidable_of_iff (beqNp a b = true)
    ⟨beqNp_imp_eq a b, fun h => h ▸ beqNp_refl a⟩

end NpDtype

mutual

/-- `dtype.itemsize` of the modelled dtypes (numpy semantics). -/
def npItemsize : NpDtype → Nat
  | .num s =>
    if s = "bool" ∨ s = "int8" ∨ s = "uint8" then 1
    else if s = "int16" ∨ s = "uint16" ∨ s = "float16" then 2
    else if s = "int32" ∨ s = "uint32" ∨ s = "float32" then 4
    else if s = "complex128" then 16
    else if s = "void" then 0
    else 8
  | .bytesS n => n
  | .unicodeU n => 4 * n
  | .objectVlen => 8
  | .datetime64 _ => 8
  | .recordD fs => npFieldsSize fs

def npFieldsSize : List (String × NpDtype) → Nat
  | [] => 0
  | (_, d) :: fs => npItemsize d + npFieldsSize fs

end

/-- `dtype.name` (numpy semantics): scalar dtypes carry their canonical
name, fixed strings are `bytes<bits>`/`str<bits>`, the vlen-object dtype
is named `object`, datetimes `datetime64[unit]`, structs `void<bits>`. -/
def npName : NpDtype → String
  | .num s => s
  | .bytesS n => "bytes" ++ toString (8 * n)
  | .unicodeU n => "str" ++ toString (32 * n)
  | .objectVlen => "object"
  | .datetime64 u => "datetime64[" ++ u ++ "]"
  | .recordD fs => "void" ++ toString (8 * npFieldsSize fs)

/-- `np.dtype(s)` for the scalar names `CType.to_numpy_dtype` can pass it
(line 733): the numeric/bool/object/void names construct; anything else
(`'char'` in particular) raises `TypeError`. -/
def npDtypeOfName (s : String) : Except PyErr NpDtype :=
  if s = "bool" ∨ s = "int8" ∨ s = "int16" ∨ s = "int32" ∨ s = "int64" ∨
     s = "uint8" ∨ s = "uint16" ∨ s = "uint32" ∨ s = "uint64" ∨
     s = "float16" ∨ s = "float32" ∨ s = "float64" ∨
     s = "complex64" ∨ s = "complex128" ∨ s = "object" ∨ s = "void" then
    .ok (.num s)
  else .error .typeError

/-- The complex-name fixup of `CType.to_numpy_dtype` (lines 730-732). -/
def remapComplex (s : String) : String :=
  if s = "complex[float32]" then "complex64"
  else if s = "complex[float64]" then "complex128"
  else s

mutual

/-- The per-class `to_numpy_dtype` methods: `CType` (lines 725-733),
`String` (lines 416-435: a truthy `fixlen` gives `S<n>`/`U<n>` per the
encoding — a negative one is rejected by `np.dtype` — and otherwise the
vlen-object dtype), `Date` (line 258), `DateTime` (line 298, tz ignored),
`Record` (lines 924-929).  Nodes without the method raise
`AttributeError`. -/
def monoToNumpyDtype : Mono → Except PyErr NpDtype
  | .ctype n _ _ => npDtypeOfName (remapComplex n)
  | .strM fl e =>
    match fl with
    | some v =>
      if v = 0 then .ok .objectVlen
      else if v < 0 then .error .typeError
      else if e = "A" then .ok (.bytesS v.toNat)
      else .ok (.unicodeU v.toNat)
    | Option.none => .ok .objectVlen
  | .date => .ok (.datetime64 "D")
  | .datetime _ => .ok (.datetime64 "us")
  | .record fs => do
    let fds ← fieldsToNumpy fs
    .ok (.recordD fds)
  | _ => .error .attributeError

/-- Each record field's dtype is the module-level `to_numpy_dtype(typ)`
(lines 1089-1092, used at line 928): `to_numpy(typ.measure)[1]`, i.e.
project the measure (`parameters[-1]` of a composite, the node itself
otherwise) and convert it, with `to_numpy`'s `AttributeError` ->
`NotNumpyCompatible` wrapping (lines 1128-1131); inlined here. -/
def fieldsToNumpy : List (String × Mono) → Except PyErr (List (String × NpDtype))
  | [] => .ok []
  | (n, t) :: fs => do
    let raw : Except PyErr NpDtype :=
      match t with
      | .dshape ps => lastToNumpy ps
      | m => monoToNumpyDtype m
    let d ←
      (match raw with
       | .error PyErr.attributeError => .error PyErr.notNumpyCompatible
       | r => r)
    let rest ← fieldsToNumpy fs
    .ok ((n, d) :: rest)

/-- `parameters[-1]` followed by `to_numpy_dtype` (an empty parameter
tuple raises `IndexError`). -/
def lastToNumpy : List Mono → Except PyErr NpDtype
  | [] => .error .indexError
  | [m] => monoToNumpyDtype m
  | _ :: m :: rest => lastToNumpy (m :: rest)

end

/-- The raw per-field dtype computation inside `fieldsToNumpy`
(`to_numpy(typ.measure)[1]` before the `AttributeError` wrapping),
factored out of the recursion for reasoning. -/
def fieldRaw (t : Mono) : Except PyErr NpDtype :=
  match t with
  | .dshape ps => lastToNumpy ps
  | m => monoToNumpyDtype m

/-- An element of the shape tuple built by `to_numpy` (lines 1112-1121):
`Fixed` contributes its integer value, `TypeVar` contributes `-1`, and an
`IntegerConstant` dimension is appended *as the object itself* (line
1115), not as an int. -/
inductive ShapeElem where
  | intE (n : Int)
  | iconstE (n : Int)
  deriving DecidableEq, Repr

/-- The per-dimension step of `to_numpy`'s shape loop (lines 1113-1121):
`IntegerConstant` kept as the object itself, `Fixed` as its value,
`TypeVar` as `-1`, anything else `NotNumpyCompatible`. -/
def toNumpyDim : Mono → Except PyErr ShapeElem
  | .iconst n => .ok (ShapeElem.iconstE n)
  | .fixed v => .ok (ShapeElem.intE v)
  | .typevar _ => .ok (ShapeElem.intE (-1))
  | _ => .error PyErr.notNumpyCompatible

/-- `to_numpy(ds)` (lines 1094-1135): walk `ds[:-1]` into the shape
tuple via `toNumpyDim`, take `ds[-1]` as the measure (a bare
non-composite is its own measure), and convert it with its
`to_numpy_dtype` method, turning a missing method (`AttributeError`)
into `NotNumpyCompatible`. -/
def to_numpy (m : Mono) : Except PyErr (List ShapeElem × NpDtype) := do
  match m with
  | .dshape ps => do
    let shape ← mapExcept toNumpyDim ps.dropLast
    match ps.getLast? with
    | Option.none => .error .indexError
    | some msr =>
      match monoToNumpyDtype msr with
      | .error .attributeError => .error .notNumpyCompatible
      | .error e => .error e
      | .ok dtype => .ok (shape, dtype)
  | m =>
    match monoToNumpyDtype m with
    | .error .attributeError => .error .notNumpyCompatible
    | .error e => .error e
    | .ok dtype => .ok ([], dtype)

/-- `CType.from_numpy_dtype(dt)` (lines 680-708): registry lookup by
`dt.name` first (a `KeyError` falls through), then the
datetime64 / unicode / bytes-or-str special cases, else
`NotImplementedError`. -/
def ctypeFromNumpyDtype (dt : NpDtype) : Except PyErr Mono :=
  match lookupType builtinRegistry (npName dt) with
  | .ok t => .ok t
  | .error _ =>
    match dt with
    | .datetime64 u =>
      if u = "D" ∨ u = "Y" ∨ u = "M" ∨ u = "W" then .ok date_
      else .ok datetime_
    | .unicodeU n => mkString (.int ((4 * n : Nat) / 4 : Nat)) (.str "U32")
    | .bytesS n => mkString (.int (n : Nat)) (.str "ascii")
    | _ => .error .notImplementedError

/-- The measure selection of `from_numpy` (lines 1152-1161): kind `'S'`
becomes `String(itemsize, 'A')`, kind `'U'` becomes
`String(itemsize // 4, 'U32')`, a struct dtype with (truthy, i.e.
non-empty) fields becomes a `Record` via `CType.from_numpy_dtype` on
each field, anything else goes through `CType.from_numpy_dtype`. -/
def fromNumpyMeasure (dt : NpDtype) : Except PyErr Mono :=
  match dt with
  | .bytesS n => mkString (.int (n : Nat)) (.str "A")
  | .unicodeU n => mkString (.int ((4 * n : Nat) / 4 : Nat)) (.str "U32")
  | .recordD (f :: fs) => do
    let rec' ← mapExcept (fun p => do
      let t ← ctypeFromNumpyDtype p.2
      pure (p.1, t)) (f :: fs)
    mkRecord (rec'.map (fun p => (p.1, DArg.mono p.2)))
  | dt => ctypeFromNumpyDtype dt

/-- `Fixed(elem)` as applied by `from_numpy` to each shape entry:
`operator.index` of an `IntegerConstant` object raises `TypeError`, a
negative int raises `ValueError`. -/
def fixedOfShapeElem : ShapeElem → Except PyErr Mono
  | .intE n => mkFixed n
  | .iconstE _ => .error PyErr.typeError

/-- `from_numpy(shape, dt)` (lines 1138-1166): pick the measure
(`fromNumpyMeasure`); an empty shape returns the bare measure, otherwise
`DataShape(*tuple(map(Fixed, shape)) + (measure,))`. -/
def from_numpy (shape : List ShapeElem) (dt : NpDtype) :
    Except PyErr Mono := do
  let measure ← fromNumpyMeasure dt
  match shape with
  | [] => .ok measure
  | _ => do
    let dims ← mapExcept fixedOfShapeElem shape
    mkDataShape ((dims.map DArg.mono) ++ [DArg.mono measure])

/-- `from_numpy(*to_numpy(ds))`: the layout-bridge round trip. -/
def npRoundTrip (m : Mono) : Except PyErr Mono := do
  let (shape, dt) ← to_numpy m
  from_numpy shape dt

/-! ## Helper lemmas -/

@[simp] theorem except_bind_ok {ε α β : Type} (a : α)
    (f : α → Except ε β) : (Except.ok a >>= f) = f a := rfl

@[simp] theorem except_bind_error {ε α β : Type} (e : ε)
    (f : α → Except ε β) :
    ((Except.error e : Except ε α) >>= f) = .error e := rfl

mutual

/-- A `True` verdict from the embedded `==` is sound for structural
identity: two nodes that Python deems equal are the same node of the
embedding (DataShape names aside, which equality ignores and the
embedding keeps out of the node). -/
theorem pyEqMono_sound : ∀ a b : Mono, pyEqMono a b = .ok true → a = b
  | .fixed a, b, h => by
    cases b <;>
      first
      | exact Bool.noConfusion (Except.ok.inj h)
      | exact Except.noConfusion h
      | exact congrArg Mono.fixed (of_decide_eq_true (Except.ok.inj h))
  | .var, b, h => by
    cases b <;>
      first
      | exact Bool.noConfusion (Except.ok.inj h)
      | exact Except.noConfusion h
      | rfl
  | .typevar s, b, h => by
    cases b <;>
      first
      | exact Bool.noConfusion (Except.ok.inj h)
      | exact Except.noConfusion h
      | exact congrArg Mono.typevar (of_decide_eq_true (Except.ok.inj h))
  | .iconst a, b, h => by
    cases b <;>
      first
      | exact Bool.noConfusion (Except.ok.inj h)
      | exact Except.noConfusion h
      | exact congrArg Mono.iconst (of_decide_eq_true (Except.ok.inj h))
  | .sconst a, b, h => by
    cases b <;>
      first
      | exact Bool.noConfusion (Except.ok.inj h)
      | exact Except.noConfusion h
      | exact congrArg Mono.sconst (of_decide_eq_true (Except.ok.inj h))
  | .ctype n i a, b, h => by
    cases b <;>
      first
      | exact Bool.noConfusion (Except.ok.inj h)
      | exact Except.noConfusion h
      | (obtain ⟨h1, h2, h3⟩ := of_decide_eq_true (Except.ok.inj h)
         rw [h1, h2, h3])
  | .strM f e, b, h => by
    cases b <;>
      first
      | exact Bool.noConfusion (Except.ok.inj h)
      | exact Except.noConfusion h
      | (obtain ⟨h1, h2⟩ := of_decide_eq_true (Except.ok.inj h)
         rw [h1, h2])
  | .date, b, h => by
    cases b <;>
      first
      | exact Bool.noConfusion (Except.ok.inj h)
      | exact Except.noConfusion h
      | rfl
  | .time t, b, h => by
    cases b <;>
      first
      | exact Bool.noConfusion (Except.ok.inj h)
      | exact Except.noConfusion h
      | exact congrArg Mono.time (of_decide_eq_true (Except.ok.inj h))
  | .datetime t, b, h => by
    cases b <;>
      first
      | exact Bool.noConfusion (Except.ok.inj h)
      | exact Except.noConfusion h
      | exact congrArg Mono.datetime (of_decide_eq_true (Except.ok.inj h))
  | .bytes, b, h => by
    cases b <;>
      first
      | exact Bool.noConfusion (Except.ok.inj h)
      | exact Except.noConfusion h
      | rfl
  | .json, b, h => by
    cases b <;>
      first
      | exact Bool.noConfusion (Except.ok.inj h)
      | exact Except.noConfusion h
      | rfl
  | .null, b, h => by
    cases b <;>
      first
      | exact Bool.noConfusion (Except.ok.inj h)
      | exact Except.noConfusion h
      | rfl
  | .record fs, b, h => by
    cases b <;>
      first
      | exact Bool.noConfusion (Except.ok.inj h)
      | exact Except.noConfusion h
      | exact congrArg Mono.record (pyEqFields_sound fs _ h)
  | .optionT a, b, h => by
    cases b <;>
      first
      | exact Bool.noConfusion (Except.ok.inj h)
      | exact Except.noConfusion h
      | exact congrArg Mono.optionT (pyEqMono_sound a _ h)
  | .dshape ps, b, h => by
    cases b <;>
      first
      | exact Bool.noConfusion (Except.ok.inj h)
      | exact Except.noConfusion h
      | exact congrArg Mono.dshape (pyEqList_sound ps _ h)

theorem pyEqList_sound : ∀ as bs : List Mono, pyEqList as bs = .ok true → as = bs
  | [], [], _ => rfl
  | a :: as, b :: bs, h => by
    have h' : (do
        let e ← pyEqMono a b
        if e then pyEqList as bs else .ok false) = .ok true := h
    cases he : pyEqMono a b with
    | error e => rw [he] at h'; exact Except.noConfusion h'
    | ok v =>
      rw [he] at h'
      cases v with
      | false => exact Bool.noConfusion (Except.ok.inj h')
      | true =>
        rw [pyEqMono_sound a b he, pyEqList_sound as bs h']
  | [], _ :: _, h => Bool.noConfusion (Except.ok.inj h)
  | _ :: _, [], h => Bool.noConfusion (Except.ok.inj h)

theorem pyEqFields_sound : ∀ as bs : List (String × Mono),
    pyEqFields as bs = .ok true → as = bs
  | [], [], _ => rfl
  | (n, t) :: as, (m, u) :: bs, h => by
    have h' : (if n = m then do
        let e ← pyEqMono t u
        if e then pyEqFields as bs else .ok false
      else .ok false) = .ok true := h
    by_cases hnm : n = m
    · rw [if_pos hnm] at h'
      cases he : pyEqMono t u with
      | error e => rw [he] at h'; exact Except.noConfusion h'
      | ok v =>
        rw [he] at h'
        cases v with
        | false => exact Bool.noConfusion (Except.ok.inj h')
        | true =>
          rw [hnm, pyEqMono_sound t u he, pyEqFields_sound as bs h']
    · rw [if_neg hnm] at h'
      exact Bool.noConfusion (Except.ok.inj h')
  | [], _ :: _, h => Bool.noConfusion (Except.ok.inj h)
  | _ :: _, [], h => Bool.noConfusion (Except.ok.inj h)

end

theorem dropLast_drop' {α : Type} :
    ∀ (l : List α) (n : Nat), (l.drop n).dropLast = l.dropLast.drop n
  | [], _ => by simp
  | _ :: _, 0 => rfl
  | a :: as, n + 1 => by
    cases as with
    | nil => simp
    | cons b bs =>
      have := dropLast_drop' (b :: bs) n
      simpa using this

theorem launder_mono_ok (m : Mono) :
    launder builtinRegistry (.mono m) = .ok (launderMono m) := rfl

theorem mapExcept_launder_mono (ps : List Mono)
    (h : ∀ p ∈ ps, launderMono p = p) :
    mapExcept (launder builtinRegistry) (ps.map DArg.mono) = .ok ps := by
  induction ps with
  | nil => rfl
  | cons a as ih =>
    have ha : launderMono a = a := h a (by simp)
    have ih' := ih (fun p hp => h p (by simp [hp]))
    rw [List.map_cons, mapExcept, launder_mono_ok, ha, except_bind_ok, ih',
      except_bind_ok]

/-- The `DataShape` constructor on a node-headed argument list always
takes the general path (the special arms require a string head or an
empty list). -/
theorem mkDataShape_cons_mono (a : Mono) (rest : List DArg) :
    mkDataShape (.mono a :: rest) = (do
      let params ← mapExcept (launder builtinRegistry) (DArg.mono a :: rest)
      dataShapeKindCheck params
      .ok (.dshape params)) := by
  cases rest <;> rfl

theorem kindCheck_ok_of (ps : List Mono)
    (hlast : ∀ lastP, ps.getLast? = some lastP →
      lastP.getClsOr .measure = some .measure)
    (hdims : ∀ p ∈ ps.dropLast, p.getClsOr .dimension = some .dimension) :
    dataShapeKindCheck ps = .ok () := by
  unfold dataShapeKindCheck
  split
  · rfl
  · rename_i lastP hl
    rw [if_neg (by simpa using hlast _ hl)]
    split
    · rename_i q hq
      have hpq := List.find?_some hq
      have hqmem := List.mem_of_find?_eq_some hq
      exact absurd (hdims q hqmem) (by simpa using hpq)
    · rfl

theorem kindCheck_ok_elim {ps : List Mono}
    (h : dataShapeKindCheck ps = .ok ()) :
    (∀ lastP, ps.getLast? = some lastP →
      lastP.getClsOr .measure = some .measure) ∧
    (∀ p ∈ ps.dropLast, p.getClsOr .dimension = some .dimension) := by
  unfold dataShapeKindCheck at h
  constructor
  · intro lastP hl
    split at h
    · rename_i hl'
      rw [List.getLast?_eq_none_iff] at hl'
      rw [hl'] at hl
      cases hl
    · rename_i l hl'
      have hll : l = lastP := by
        rw [hl'] at hl
        exact Option.some.inj hl
      subst hll
      by_contra hbad
      rw [if_pos (by simpa using hbad)] at h
      cases h
  · intro p hp
    split at h
    · rename_i hl
      rw [List.getLast?_eq_none_iff] at hl
      rw [hl] at hp
      cases hp
    · split at h
      · cases h
      · split at h
        · cases h
        · rename_i hf
          have := List.find?_eq_none.mp hf p hp
          simpa using this

theorem kindCheck_error_bad_last {ps : List Mono} {lastP : Mono}
    (hl : ps.getLast? = some lastP)
    (hbad : lastP.getClsOr .measure ≠ some .measure) :
    dataShapeKindCheck ps = .error .typeError := by
  unfold dataShapeKindCheck
  split
  · rename_i hl'
    rw [hl] at hl'
    cases hl'
  · rename_i l hl'
    rw [hl] at hl'
    cases hl'
    rw [if_pos (by simpa using hbad)]

theorem kindCheck_error_bad_dim {ps : List Mono} {p : Mono}
    (hmem : p ∈ ps.dropLast)
    (hbad : p.getClsOr .dimension ≠ some .dimension) :
    dataShapeKindCheck ps = .error .typeError := by
  unfold dataShapeKindCheck
  split
  · rename_i hl
    rw [List.getLast?_eq_none_iff] at hl
    rw [hl] at hmem
    cases hmem
  · rename_i l hl
    split
    · rfl
    · split
      · rfl
      · rename_i hf
        exact absurd (by simpa using List.find?_eq_none.mp hf p hmem) hbad

/-- Constructor stability: re-running the `DataShape` constructor on an
already laundered, kind-valid parameter list reproduces exactly that
list. -/
theorem mkDataShape_mono_eq (ps : List Mono) (h0 : ps ≠ [])
    (h1 : ∀ p ∈ ps, launderMono p = p)
    (h2 : dataShapeKindCheck ps = .ok ()) :
    mkDataShape (ps.map DArg.mono) = .ok (.dshape ps) := by
  cases ps with
  | nil => exact absurd rfl h0
  | cons a as =>
    rw [List.map_cons, mkDataShape_cons_mono, ← List.map_cons,
      mapExcept_launder_mono _ h1, except_bind_ok, h2, except_bind_ok]

/-- `subarray` on a well-formed composite, in the in-range case: it
removes exactly the first `k` constituents. -/
theorem subarray_ok {ps : List Mono}
    (h1 : ∀ p ∈ ps, launderMono p = p)
    (h2 : dataShapeKindCheck ps = .ok ())
    {k : Int} (hk0 : 0 ≤ k) (hk : k < (ps.length : Int)) :
    subarray (.dshape ps) k = .ok (.dshape (ps.drop k.toNat)) := by
  have hdrop_ne : ps.drop k.toNat ≠ [] := by
    rw [← List.length_pos_iff_ne_nil, List.length_drop]
    omega
  have hmem : ∀ p ∈ ps.drop k.toNat, launderMono p = p :=
    fun p hp => h1 p (List.mem_of_mem_drop hp)
  have hkc : dataShapeKindCheck (ps.drop k.toNat) = .ok () := by
    obtain ⟨hlast, hdims⟩ := kindCheck_ok_elim h2
    apply kindCheck_ok_of
    · intro lastP hl
      rw [List.getLast?_drop, if_neg (by omega)] at hl
      exact hlast _ hl
    · intro p hp
      rw [dropLast_drop'] at hp
      exact hdims p (List.mem_of_mem_drop hp)
  have hone : mkDataShape ((ps.drop k.toNat).map DArg.mono) =
      .ok (.dshape (ps.drop k.toNat)) :=
    mkDataShape_mono_eq _ hdrop_ne hmem hkc
  show dsSubarray ps k = .ok (.dshape (ps.drop k.toNat))
  unfold dsSubarray
  rw [if_neg (by omega)]
  by_cases hk1 : k = (ps.length : Int) - 1
  · rw [if_pos (Or.inl hk1)]
    cases hl : ps.getLast? with
    | none =>
      rw [List.getLast?_eq_none_iff] at hl
      subst hl
      simp at hk
      exfalso
      omega
    | some lastP =>
      have hdrop : ps.drop k.toNat = [lastP] := by
        have hps := List.dropLast_append_getLast? lastP hl
        have hlen : ps.dropLast.length = k.toNat := by
          rw [List.length_dropLast]
          omega
        calc ps.drop k.toNat = (ps.dropLast ++ [lastP]).drop k.toNat := by
              rw [hps]
          _ = [lastP] := by
              rw [List.drop_append_of_le_length (by omega),
                List.drop_eq_nil_iff.mpr (by omega)]
              simp
      show mkDataShape [DArg.mono lastP] = .ok (.dshape (ps.drop k.toNat))
      rw [hdrop] at hone ⊢
      exact hone
  · rw [if_neg (by push_neg; constructor <;> omega)]
    have hslice : pySliceFrom ps k = ps.drop k.toNat := by
      rw [pySliceFrom, if_pos hk0]
    rw [hslice]
    exact hone

/-- `subarray` on a composite raises `IndexError` exactly on
out-of-range (≥ length) leading counts. -/
theorem subarray_err {ps : List Mono} {k : Int}
    (hk : (ps.length : Int) ≤ k) :
    subarray (.dshape ps) k = .error .indexError := by
  show dsSubarray ps k = .error .indexError
  unfold dsSubarray
  rw [if_pos (by omega)]

theorem subarray_nondshape (m : Mono) (hm : ∀ qs, m ≠ .dshape qs)
    (k : Int) : subarray m k = monoSubarray m k := by
  cases m <;> first | exact absurd rfl (hm _) | rfl

/-- `mkDataShape` on a non-empty argument list that is not a lone
string always takes the general launder-validate path. -/
theorem mkDataShape_default (args : List DArg)
    (hne : args ≠ []) (hstr : ∀ s, args ≠ [.str s]) :
    mkDataShape args = (do
      let params ← mapExcept (launder builtinRegistry) args
      dataShapeKindCheck params
      .ok (.dshape params)) := by
  match args with
  | [] => exact absurd rfl hne
  | [.str s] => exact absurd rfl (hstr s)
  | [.int _] => rfl
  | [.mono _] => rfl
  | .str _ :: _ :: _ => rfl
  | .int _ :: _ :: _ => rfl
  | .mono _ :: _ :: _ => rfl

theorem mapExcept_length {α β : Type} {f : α → Except PyErr β} :
    ∀ {l : List α} {l' : List β}, mapExcept f l = .ok l' →
      l'.length = l.length := by
  intro l
  induction l with
  | nil => intro l' h; cases h; rfl
  | cons a as ih =>
    intro l' h
    rw [mapExcept] at h
    cases hf : f a with
    | error e => rw [hf] at h; cases h
    | ok b =>
      rw [hf, except_bind_ok] at h
      cases hm : mapExcept f as with
      | error e => rw [hm] at h; cases h
      | ok bs =>
        rw [hm, except_bind_ok] at h
        cases h
        simp [ih hm]

/-- What a successful run of the `DataShape` constructor guarantees
about its result: a `dshape` node whose parameter list is non-empty and
passes the kind checks. -/
theorem mkDataShape_ok_elim {args : List DArg} {m : Mono}
    (h : mkDataShape args = .ok m) :
    ∃ ps, m = .dshape ps ∧ 1 ≤ ps.length ∧
      dataShapeKindCheck ps = .ok () := by
  have hne : args ≠ [] := by
    intro hnil
    rw [hnil] at h
    cases h
  have hstr : ∀ s, args ≠ [.str s] := by
    intro s hs
    rw [hs] at h
    cases h
  rw [mkDataShape_default args hne hstr] at h
  cases hm : mapExcept (launder builtinRegistry) args with
  | error e => rw [hm] at h; cases h
  | ok ps =>
    rw [hm, except_bind_ok] at h
    cases hk : dataShapeKindCheck ps with
    | error e => rw [hk] at h; cases h
    | ok u =>
      cases u
      rw [hk, except_bind_ok] at h
      cases h
      refine ⟨ps, rfl, ?_, hk⟩
      have := mapExcept_length hm
      cases args with
      | nil => exact absurd rfl hne
      | cons a as => simp [this]

/-- A positional parameter as exposed by `Mono.parameters`
(lines 65-70): Python `None`, an `int`, a `str`, a nested node, or a
`Record`'s field tuple. -/
inductive PyParam where
  | pnone
  | pint (n : Int)
  | pstr (s : String)
  | pmono (m : Mono)
  | pfields (fs : List (String × Mono))
  deriving Repr

/-- `Mono.parameters` (lines 65-70): the `__slots__` values in order for
slotted classes, `self._parameters` otherwise (`Record` stores the
single-element tuple `(fields,)`, line 906; `DataShape` its laundered
constituent tuple, line 479 — the `name` attribute is not a slot and is
not part of the parameters). -/
def monoParameters : Mono → List PyParam
  | .fixed v => [.pint v]
  | .var => []
  | .typevar s => [.pstr s]
  | .iconst v => [.pint v]
  | .sconst s => [.pstr s]
  | .ctype n i a => [.pstr n, .pint i, .pint a]
  | .strM fl e =>
    [(match fl with
      | Option.none => PyParam.pnone
      | some v => PyParam.pint v), .pstr e]
  | .date => []
  | .time tz =>
    [(match tz with
      | Option.none => PyParam.pnone
      | some s => PyParam.pstr s)]
  | .datetime tz =>
    [(match tz with
      | Option.none => PyParam.pnone
      | some s => PyParam.pstr s)]
  | .bytes => []
  | .json => []
  | .null => []
  | .record fs => [.pfields fs]
  | .optionT t => [.pmono t]
  | .dshape ps => ps.map .pmono

theorem rest_ne_nil_of_dim_head {d : Mono} {rest : List Mono}
    (hd : d.getClsOr .measure ≠ some .measure)
    (h : dataShapeKindCheck (d :: rest) = .ok ()) : rest ≠ [] := by
  intro hnil
  subst hnil
  obtain ⟨hlast, -⟩ := kindCheck_ok_elim h
  exact hd (hlast d rfl)

theorem kindCheck_replace_head {x y : Mono} {rest : List Mono}
    (hrest : rest ≠ [])
    (h : dataShapeKindCheck (x :: rest) = .ok ())
    (hy : y.getClsOr .dimension = some .dimension) :
    dataShapeKindCheck (y :: rest) = .ok () := by
  obtain ⟨hlast, hdims⟩ := kindCheck_ok_elim h
  cases rest with
  | nil => exact absurd rfl hrest
  | cons b bs =>
    apply kindCheck_ok_of
    · intro lastP hl
      rw [List.getLast?_cons_cons] at hl
      exact hlast lastP (by rw [List.getLast?_cons_cons]; exact hl)
    · intro p hp
      have hdl : (y :: b :: bs).dropLast = y :: (b :: bs).dropLast := rfl
      rw [hdl] at hp
      rcases List.mem_cons.mp hp with rfl | hp
      · exact hy
      · exact hdims p (by
          have hdl' : (x :: b :: bs).dropLast = x :: (b :: bs).dropLast := rfl
          rw [hdl']
          exact List.mem_cons_of_mem _ hp)

/-- The claim's count arithmetic for a slice: `stop' - start'`, adjusted
to the exact ceiling of `count / step` when a step is given. -/
def ceilStep (count : Int) : Option Int → Int
  | some st => -(Int.fdiv (-count) st)
  | Option.none => count

theorem pyCeilDiv_ok {count st : Int} (hst : st ≠ 0) :
    pyCeilDiv count st = .ok (ceilStep count (some st)) := by
  unfold pyCeilDiv
  rw [if_neg hst]
  rfl

/-- `n * ds` for a non-negative int and a well-formed parameter list:
`DataShape(Fixed(n), *ds)`. -/
theorem intMul_ok (c : Int) (hc : 0 ≤ c) (rest : List Mono)
    (_hrest : rest ≠ [])
    (hL : ∀ p ∈ rest, launderMono p = p)
    (hK : dataShapeKindCheck (Mono.fixed c.toNat :: rest) = .ok ()) :
    intMul c (.dshape rest) = .ok (.dshape (.fixed c.toNat :: rest)) := by
  show (do
    let f ← mkFixed c
    mkDataShape (.mono f :: rest.map .mono)) =
      .ok (.dshape (.fixed c.toNat :: rest))
  have hf : mkFixed c = .ok (.fixed c.toNat) := by
    unfold mkFixed
    rw [if_neg (by omega)]
  rw [hf, except_bind_ok, ← List.map_cons]
  exact mkDataShape_mono_eq _ (by simp)
    (by
      intro p hp
      rcases List.mem_cons.mp hp with rfl | hp
      · rfl
      · exact hL p hp)
    hK

/-- The `index.stop or int(self[0])` computation on a `Fixed(d)` head is
exactly the claim arithmetic `pyOrInt stop d`. -/
theorem stopv_fixed (d : Nat) (stop : Option Int) :
    sliceStopValue (.fixed d) stop = .ok (pyOrInt stop (d : Int)) := by
  cases stop with
  | none => rfl
  | some n =>
    show (if n = 0 then pyInt (.fixed d) else pure n) =
      Except.ok (pyOrInt (some n) (d : Int))
    by_cases hn : n = 0
    · subst hn
      simp [pyOrInt, pyInt]
    · rw [if_neg hn]
      simp [pyOrInt, hn]
      rfl

/-- `sliceStopValue` on an explicit non-zero stop ignores the head. -/
theorem stopv_explicit (hd : Mono) {n : Int} (hn : n ≠ 0) :
    sliceStopValue hd (some n) = .ok n := by
  show (if n = 0 then pyInt hd else pure n) = Except.ok n
  rw [if_neg hn]
  rfl

theorem stepv_eq (count : Int) {step : Option Int} (hstep : step ≠ some 0) :
    sliceStepAdjust count step = .ok (ceilStep count step) := by
  cases step with
  | none => rfl
  | some st =>
    have hst : st ≠ 0 := fun h => hstep (by rw [h])
    exact pyCeilDiv_ok hst

theorem toDigitsCore_eq_nil_imp :
    ∀ (fuel b n : Nat) (ds : List Char),
      Nat.toDigitsCore b fuel n ds = [] → ds = []
  | 0, _, _, _, h => h
  | fuel + 1, b, n, ds, h => by
    unfold Nat.toDigitsCore at h
    by_cases hz : n / b = 0
    · simp [hz] at h
    · simp only [if_neg hz] at h
      have := toDigitsCore_eq_nil_imp fuel b (n / b) _ h
      cases this

/-- The decimal rendering of a `Nat` is never the empty string. -/
theorem natToString_ne_empty (k : Nat) : toString k ≠ "" := by
  show Nat.repr k ≠ ""
  unfold Nat.repr
  intro h
  have hd : (Nat.toDigits 10 k) = [] := by
    have := congrArg String.data h
    simpa [List.asString] using this
  unfold Nat.toDigits Nat.toDigitsCore at hd
  by_cases hz : k / 10 = 0
  · simp [hz] at hd
  · simp only [if_neg hz] at hd
    have := toDigitsCore_eq_nil_imp _ _ _ _ hd
    cases this

theorem toDigitsCore_chars :
    ∀ (fuel n : Nat) (ds : List Char),
      ∀ c ∈ Nat.toDigitsCore 10 fuel n ds,
        c ∈ ds ∨ ∃ m, m < 10 ∧ c = Nat.digitChar m
  | 0, _, _, _, hc => Or.inl hc
  | fuel + 1, n, ds, c, hc => by
    unfold Nat.toDigitsCore at hc
    by_cases hz : n / 10 = 0
    · simp only [hz, if_pos rfl] at hc
      rcases List.mem_cons.mp hc with rfl | hc
      · exact Or.inr ⟨n % 10, Nat.mod_lt _ (by omega), rfl⟩
      · exact Or.inl hc
    · simp only [if_neg hz] at hc
      rcases toDigitsCore_chars fuel (n / 10) _ c hc with hc | hc
      · rcases List.mem_cons.mp hc with rfl | hc
        · exact Or.inr ⟨n % 10, Nat.mod_lt _ (by omega), rfl⟩
        · exact Or.inl hc
      · exact Or.inr hc

/-- Every character of the decimal rendering of a `Nat` is a decimal
digit character. -/
theorem natToString_digits (k : Nat) :
    ∀ c ∈ (toString k).data, ∃ m, m < 10 ∧ c = Nat.digitChar m := by
  intro c hc
  have hc' : c ∈ Nat.toDigits 10 k := by
    simpa [toString, Nat.repr, List.asString] using hc
  rcases toDigitsCore_chars _ _ _ c hc' with h | h
  · cases h
  · exact h

/-- A numpy `bytes<bits>` dtype name never hits the type registry. -/
theorem lookupType_bytes_miss (t : String) (h1 : t ≠ "")
    (h2 : ∀ c ∈ t.data, ∃ m, m < 10 ∧ c = Nat.digitChar m) :
    lookupType builtinRegistry ("bytes" ++ t) = .error .keyError := by
  have hf : builtinRegistry.find? (fun p => p.1 = ("bytes" ++ t)) = none := by
    rw [List.find?_eq_none]
    intro x hx
    have hne : x.1 ≠ "bytes" ++ t := by
      fin_cases hx <;>
        · intro hE
          have hdata := congrArg String.data hE
          simp [String.data_append] at hdata
          all_goals exact h1 (by cases t; simp_all)
    simpa using hne
  unfold lookupType
  rw [hf]

/-- A numpy `str<bits>` dtype name never hits the type registry (in
particular it is not the registered name `string`, since the suffix is
all digits). -/
theorem lookupType_str_miss (t : String)
    (h2 : ∀ c ∈ t.data, ∃ m, m < 10 ∧ c = Nat.digitChar m) :
    lookupType builtinRegistry ("str" ++ t) = .error .keyError := by
  have hf : builtinRegistry.find? (fun p => p.1 = ("str" ++ t)) = none := by
    rw [List.find?_eq_none]
    intro x hx
    have hne : x.1 ≠ "str" ++ t := by
      fin_cases hx <;>
        · intro hE
          have hdata := congrArg String.data hE
          simp [String.data_append] at hdata
          all_goals
            obtain ⟨m, hm, hc⟩ := h2 'i' (by rw [← hdata]; simp)
            interval_cases m <;> exact absurd hc (by decide)
    simpa using hne
  unfold lookupType
  rw [hf]

theorem getClsOr_of_cls {m : Mono} {k : Kind} (h : m.clsAttr = .kind k)
    (dflt : Kind) : m.getClsOr dflt = some k := by
  unfold Mono.getClsOr
  rw [h]

theorem mapExcept_map_ok {α β γ : Type} (f : β → Except PyErr γ)
    (e : α → β) (g : α → γ) :
    ∀ l : List α, (∀ a ∈ l, f (e a) = .ok (g a)) →
      mapExcept f (l.map e) = .ok (l.map g) := by
  intro l h
  induction l with
  | nil => rfl
  | cons a as ih =>
    rw [List.map_cons, mapExcept, h a (by simp), except_bind_ok,
      ih (fun b hb => h b (by simp [hb])), except_bind_ok, List.map_cons]

/-- The built-in scalar types whose numpy dtype name round-trips through
the registry. -/
def builtinScalars : List Mono :=
  [bool_, int8, int16, int32, int64, uint8, uint16, uint32, uint64,
   float16, float32, float64, complex_float32, complex_float64]

/-- A measure that a `Record` field may carry through the numpy bridge
and back unchanged: a built-in scalar, `date`/`datetime`, or a
positive-length `'A'`- or `'U32'`-encoded string. -/
def fieldRT (m : Mono) : Prop :=
  m ∈ builtinScalars ∨ m = date_ ∨ m = datetime_ ∨
  (∃ n : Nat, 0 < n ∧
    (m = .strM (some (n : Int)) "A" ∨ m = .strM (some (n : Int)) "U32"))

/-- A measure the numpy bridge round-trips unchanged: a `fieldRT`
measure or a non-empty record of them. -/
def measureRT (m : Mono) : Prop :=
  fieldRT m ∨ ∃ fs, m = .record fs ∧ fs ≠ [] ∧ ∀ f ∈ fs, fieldRT f.2

theorem fieldRT_not_dshape {t : Mono} (h : fieldRT t) :
    ∀ ps, t ≠ .dshape ps := by
  intro ps hE
  subst hE
  rcases h with hs | hE | hE | ⟨n, hn, hE | hE⟩
  · simp [builtinScalars, bool_, int8, int16, int32, int64, uint8, uint16,
      uint32, uint64, float16, float32, float64, complex_float32,
      complex_float64] at hs
  · exact Mono.noConfusion hE
  · exact Mono.noConfusion hE
  · exact Mono.noConfusion hE
  · exact Mono.noConfusion hE

theorem fieldRaw_eq {t : Mono} (hnd : ∀ ps, t ≠ Mono.dshape ps) :
    fieldRaw t = monoToNumpyDtype t := by
  cases t <;> first | rfl | exact absurd rfl (hnd _)

theorem fieldRT_launderMono {t : Mono} (h : fieldRT t) :
    launderMono t = t := by
  rcases h with hs | rfl | rfl | ⟨n, hn, rfl | rfl⟩ <;> try rfl
  fin_cases hs <;> rfl

theorem fieldRT_roundtrip {m : Mono} (h : fieldRT m) :
    ∃ d, monoToNumpyDtype m = .ok d ∧ ctypeFromNumpyDtype d = .ok m := by
  rcases h with hs | rfl | rfl | ⟨n, hn, rfl | rfl⟩
  · fin_cases hs <;> exact ⟨_, rfl, by decide⟩
  · exact ⟨_, rfl, by decide⟩
  · exact ⟨_, rfl, by decide⟩
  · refine ⟨.bytesS n, ?_, ?_⟩
    · show (if ((n : Nat) : Int) = 0 then
          (.ok NpDtype.objectVlen : Except PyErr NpDtype)
        else if ((n : Nat) : Int) < 0 then .error .typeError
        else if ("A" : String) = "A" then .ok (.bytesS ((n : Nat) : Int).toNat)
        else .ok (.unicodeU ((n : Nat) : Int).toNat)) = .ok (.bytesS n)
      rw [if_neg (by omega), if_neg (by omega), if_pos rfl]
      simp
    · unfold ctypeFromNumpyDtype
      rw [show npName (.bytesS n) = "bytes" ++ toString (8 * n) from rfl,
        lookupType_bytes_miss (toString (8 * n)) (natToString_ne_empty _)
          (natToString_digits _)]
      rfl
  · refine ⟨.unicodeU n, ?_, ?_⟩
    · show (if ((n : Nat) : Int) = 0 then
          (.ok NpDtype.objectVlen : Except PyErr NpDtype)
        else if ((n : Nat) : Int) < 0 then .error .typeError
        else if ("U32" : String) = "A" then
          .ok (.bytesS ((n : Nat) : Int).toNat)
        else .ok (.unicodeU ((n : Nat) : Int).toNat)) = .ok (.unicodeU n)
      rw [if_neg (by omega), if_neg (by omega), if_neg (by decide)]
      simp
    · unfold ctypeFromNumpyDtype
      rw [show npName (.unicodeU n) = "str" ++ toString (32 * n) from rfl,
        lookupType_str_miss (toString (32 * n)) (natToString_digits _)]
      show mkString (.int ((4 * n : Nat) / 4 : Nat)) (.str "U32") =
        .ok (.strM (some (n : Int)) "U32")
      rw [show ((4 * n : Nat) / 4 : Nat) = n from by omega]
      rfl

theorem fieldsToNumpy_ok {fs : List (String × Mono)}
    (h : ∀ f ∈ fs, fieldRT f.2) :
    ∃ fds, fieldsToNumpy fs = .ok fds ∧
      mapExcept (fun p => do
        let t ← ctypeFromNumpyDtype p.2
        pure (p.1, t)) fds = .ok fs := by
  induction fs with
  | nil => exact ⟨[], rfl, rfl⟩
  | cons f rest ih =>
    obtain ⟨nm, t⟩ := f
    obtain ⟨fds, h1, h2⟩ := ih (fun g hg => h g (List.mem_cons_of_mem _ hg))
    have hf : fieldRT t := h (nm, t) (by simp)
    obtain ⟨d, hd1, hd2⟩ := fieldRT_roundtrip hf
    refine ⟨(nm, d) :: fds, ?_, ?_⟩
    · rw [fieldsToNumpy]
      split
      · rename_i heq
        rw [hd1] at heq
        exact Except.noConfusion heq
      · rw [hd1, except_bind_ok, h1, except_bind_ok]
      · exact fun ps hE => fieldRT_not_dshape hf ps hE
    · rw [mapExcept]
      show (do
        let b ← (do
          let t' ← ctypeFromNumpyDtype d
          pure ((nm, t') : String × Mono))
        let bs ← mapExcept (fun (p : String × NpDtype) => do
          let t ← ctypeFromNumpyDtype p.2
          pure ((p.1, t) : String × Mono)) fds
        (.ok (b :: bs) : Except PyErr (List (String × Mono)))) =
          .ok ((nm, t) :: rest)
      rw [hd2]
      show (do
        let bs ← mapExcept (fun (p : String × NpDtype) => do
          let t ← ctypeFromNumpyDtype p.2
          pure ((p.1, t) : String × Mono)) fds
        (.ok ((nm, t) :: bs) : Except PyErr (List (String × Mono)))) =
          .ok ((nm, t) :: rest)
      rw [h2, except_bind_ok]

theorem mkRecord_mono (fs : List (String × Mono))
    (h : ∀ f ∈ fs, launderMono f.2 = f.2) :
    mkRecord (fs.map (fun p => (p.1, DArg.mono p.2))) = .ok (.record fs) := by
  have hsuff : mapExcept (fun (p : String × DArg) => do
      let t ← launder builtinRegistry p.2
      pure ((p.1, t) : String × Mono))
      (fs.map (fun (p : String × Mono) => (p.1, DArg.mono p.2))) =
        .ok fs := by
    have := mapExcept_map_ok
      (fun (p : String × DArg) => do
        let t ← launder builtinRegistry p.2
        pure ((p.1, t) : String × Mono))
      (fun (p : String × Mono) => (p.1, DArg.mono p.2))
      id fs
      (fun a ha => by
        show (do
          let t ← launder builtinRegistry (DArg.mono a.2)
          pure ((a.1, t) : String × Mono)) = .ok a
        rw [launder_mono_ok, h a ha]
        rfl)
    simpa using this
  show (do
    let fs' ← mapExcept (fun (p : String × DArg) => do
      let t ← launder builtinRegistry p.2
      pure ((p.1, t) : String × Mono))
      (fs.map (fun (p : String × Mono) => (p.1, DArg.mono p.2)))
    (.ok (.record fs') : Except PyErr Mono)) = .ok (.record fs)
  rw [hsuff, except_bind_ok]

/-- Everything the main round-trip argument needs about a `measureRT`
measure, bundled: its dtype, the way back, its kind, and laundering
stability. -/
theorem measureRT_bundle {m : Mono} (h : measureRT m) :
    ∃ d, monoToNumpyDtype m = .ok d ∧ fromNumpyMeasure d = .ok m ∧
      m.clsAttr = ClsAttr.kind .measure ∧ launderMono m = m := by
  rcases h with hf | ⟨fs, rfl, hne, hfields⟩
  · rcases hf with hs | rfl | rfl | ⟨n, hn, rfl | rfl⟩
    · fin_cases hs <;> exact ⟨_, rfl, by decide, rfl, rfl⟩
    · exact ⟨_, rfl, by decide, rfl, rfl⟩
    · exact ⟨_, rfl, by decide, rfl, rfl⟩
    · refine ⟨.bytesS n, ?_, rfl, rfl, rfl⟩
      show (if ((n : Nat) : Int) = 0 then
          (.ok NpDtype.objectVlen : Except PyErr NpDtype)
        else if ((n : Nat) : Int) < 0 then .error .typeError
        else if ("A" : String) = "A" then .ok (.bytesS ((n : Nat) : Int).toNat)
        else .ok (.unicodeU ((n : Nat) : Int).toNat)) = .ok (.bytesS n)
      rw [if_neg (by omega), if_neg (by omega), if_pos rfl]
      simp
    · refine ⟨.unicodeU n, ?_, ?_, rfl, rfl⟩
      · show (if ((n : Nat) : Int) = 0 then
            (.ok NpDtype.objectVlen : Except PyErr NpDtype)
          else if ((n : Nat) : Int) < 0 then .error .typeError
          else if ("U32" : String) = "A" then
            .ok (.bytesS ((n : Nat) : Int).toNat)
          else .ok (.unicodeU ((n : Nat) : Int).toNat)) = .ok (.unicodeU n)
        rw [if_neg (by omega), if_neg (by omega), if_neg (by decide)]
        simp
      · show mkString (.int ((4 * n : Nat) / 4 : Nat)) (.str "U32") =
          .ok (.strM (some (n : Int)) "U32")
        rw [show ((4 * n : Nat) / 4 : Nat) = n from by omega]
        rfl
  · obtain ⟨fds, h1, h2⟩ := fieldsToNumpy_ok hfields
    refine ⟨.recordD fds, ?_, ?_, rfl, rfl⟩
    · show (do
        let fds' ← fieldsToNumpy fs
        (.ok (.recordD fds') : Except PyErr NpDtype)) = _
      rw [h1, except_bind_ok]
    · cases fds with
      | nil =>
        cases fs with
        | nil => exact absurd rfl hne
        | cons f r => exact List.noConfusion (Except.ok.inj h2)
      | cons f0 fds' =>
        show (do
          let rec' ← mapExcept (fun (p : String × NpDtype) => do
            let t ← ctypeFromNumpyDtype p.2
            pure ((p.1, t) : String × Mono)) (f0 :: fds')
          mkRecord (rec'.map
            (fun (p : String × Mono) => (p.1, DArg.mono p.2)))) =
            .ok (.record fs)
        rw [h2, except_bind_ok]
        exact mkRecord_mono fs
          (fun f hf => fieldRT_launderMono (hfields f hf))

/-- The generic shape of the layout-bridge round trip: `Fixed` leading
dimensions survive unchanged, and the measure `m` comes back as whatever
`fromNumpyMeasure` makes of its dtype. -/
theorem npRoundTrip_shape (dims : List Nat) (hdims : dims ≠ [])
    (m m' : Mono) (d : NpDtype)
    (hd1 : monoToNumpyDtype m = .ok d)
    (hd2 : fromNumpyMeasure d = .ok m')
    (hcls' : m'.clsAttr = ClsAttr.kind .measure)
    (hlm' : launderMono m' = m') :
    npRoundTrip (.dshape (dims.map Mono.fixed ++ [m])) =
      .ok (.dshape (dims.map Mono.fixed ++ [m'])) := by
  have hto : to_numpy (.dshape (dims.map Mono.fixed ++ [m])) =
      .ok (dims.map (fun (v : Nat) => ShapeElem.intE (v : Int)), d) := by
    show (do
      let shape ← mapExcept toNumpyDim ((dims.map Mono.fixed ++ [m]).dropLast)
      match (dims.map Mono.fixed ++ [m]).getLast? with
      | Option.none =>
        (.error .indexError : Except PyErr (List ShapeElem × NpDtype))
      | some msr =>
        match monoToNumpyDtype msr with
        | .error .attributeError => .error .notNumpyCompatible
        | .error e => .error e
        | .ok dtype => .ok (shape, dtype)) =
      .ok (dims.map (fun (v : Nat) => ShapeElem.intE (v : Int)), d)
    rw [List.dropLast_concat,
      mapExcept_map_ok toNumpyDim Mono.fixed
        (fun (v : Nat) => ShapeElem.intE (v : Int)) dims (fun a ha => rfl),
      except_bind_ok, List.getLast?_concat]
    show (match monoToNumpyDtype m with
      | .error .attributeError =>
        (.error .notNumpyCompatible : Except PyErr (List ShapeElem × NpDtype))
      | .error e => .error e
      | .ok dtype =>
        .ok (dims.map (fun (v : Nat) => ShapeElem.intE (v : Int)), dtype)) =
      .ok (dims.map (fun (v : Nat) => ShapeElem.intE (v : Int)), d)
    rw [hd1]
  have hfrom : from_numpy (dims.map (fun (v : Nat) => ShapeElem.intE (v : Int))) d =
      .ok (.dshape (dims.map Mono.fixed ++ [m'])) := by
    cases dims with
    | nil => exact absurd rfl hdims
    | cons d0 drest =>
      show (do
        let measure ← fromNumpyMeasure d
        (do
          let dims' ← mapExcept fixedOfShapeElem
            ((d0 :: drest).map (fun (v : Nat) => ShapeElem.intE (v : Int)))
          mkDataShape ((dims'.map DArg.mono) ++ [DArg.mono measure]) :
          Except PyErr Mono)) =
        .ok (.dshape ((d0 :: drest).map Mono.fixed ++ [m']))
      rw [hd2, except_bind_ok,
        mapExcept_map_ok fixedOfShapeElem
          (fun (v : Nat) => ShapeElem.intE (v : Int)) Mono.fixed (d0 :: drest)
          (fun a ha => by
            show mkFixed ((a : Nat) : Int) = .ok (.fixed a)
            unfold mkFixed
            rw [if_neg (by omega)]
            simp),
        except_bind_ok,
        show (((d0 :: drest).map Mono.fixed).map DArg.mono) ++
            [DArg.mono m'] =
            (((d0 :: drest).map Mono.fixed) ++ [m']).map DArg.mono from by
          simp]
      refine mkDataShape_mono_eq _ (by simp) ?_ ?_
      · intro p hp
        rcases List.mem_append.mp hp with hp | hp
        · obtain ⟨v, -, rfl⟩ := List.mem_map.mp hp
          rfl
        · rw [List.mem_singleton.mp hp]
          exact hlm'
      · refine kindCheck_ok_of _ (fun lastP hl => ?_) (fun p hp => ?_)
        · rw [List.getLast?_concat] at hl
          cases Option.some.inj hl
          exact getClsOr_of_cls hcls' _
        · rw [List.dropLast_concat] at hp
          obtain ⟨v, -, rfl⟩ := List.mem_map.mp hp
          rfl
  unfold npRoundTrip
  rw [hto]
  exact hfrom

/-! ## The claims -/

/-- C1: the spec says `sigform(ds)` replaces every leading dimension by
a fresh `TypeVar` named `I0, I1, ...` and succeeds, the fresh names
satisfying the uppercase-initial invariant of `TypeVar`.  The code
instead builds `TypeVar('i%s' % n)` (line 537) with a lowercase `i`,
which `TypeVar.__init__` (lines 795-797) rejects, so `sigform` raises
`ValueError` on every `DataShape` with at least one leading dimension:
the claim is right about the intended behaviour and the code cannot
deliver it.  Shown here at `DataShape(Fixed(5), int32)`, together with
the two constructor facts (`TypeVar('i0')` raises, `TypeVar('I0')`
succeeds) and the general statement for any composite with a leading
dimension. -/
theorem c1_sigform_always_raises :
    sigform (.dshape [.fixed 5, int32]) = .error .valueError ∧
    mkTypeVar "i0" = .error .valueError ∧
    mkTypeVar "I0" = .ok (.typevar "I0") ∧
    (∀ ps : List Mono, 2 ≤ ps.length →
      sigform (.dshape ps) = .error .valueError) := by
  refine ⟨by decide, by decide, by decide, ?_⟩
  intro ps hlen
  obtain ⟨n, hn⟩ : ∃ n, ps.length - 1 = n + 1 := ⟨ps.length - 2, by omega⟩
  show (do
    let newparams ← mapExcept
      (fun n => mkTypeVar ("i" ++ toString n)) (List.range (ps.length - 1))
    match ps.getLast? with
    | Option.none => (.error .indexError : Except PyErr Mono)
    | some lastP => mkDataShape ((newparams ++ [lastP]).map .mono)) =
      .error .valueError
  have hf0 : mkTypeVar ("i" ++ toString 0) = .error .valueError := by decide
  rw [hn, List.range_succ_eq_map, mapExcept, hf0, except_bind_error,
    except_bind_error]

/-- C1 witness: the general part of `c1_sigform_always_raises` applied
to the concrete two-parameter shape `5 * int32`. -/
theorem c1_sigform_always_raises_witness :
    sigform (.dshape [.fixed 5, int32]) = .error .valueError :=
  c1_sigform_always_raises.2.2.2 [.fixed 5, int32] (by decide)

/-- C2: the spec's reconstruction rule `type(x)(*x.parameters) == x` is
also documented on `Mono` itself (lines 53-57), but it fails for
`String` with default arguments: `String()` stores `fixlen = None`,
`encoding = u'U8'` (lines 359-362), so its parameters are
`(None, 'U8')` — and `String(None, 'U8')` matches none of the four
accepted argument shapes of `String.__init__` and raises `ValueError`
(lines 390-392).  The claim is right about the documented contract and
the code breaks it.  (`SArg.none`/`SArg.str` are the embedded calling
conventions for the positional Python values `None` and a `str`.) -/
theorem c2_string_reconstruction_fails :
    mkString .none .none = .ok string ∧
    monoParameters string = [.pnone, .pstr "U8"] ∧
    (∀ e : String, mkString .none (.str e) = .error .valueError) ∧
    mkString .none (.str "U8") = .error .valueError :=
  ⟨by decide, rfl, fun _ => rfl, by decide⟩

/-- C3: the spec claims `from_numpy(*to_numpy(ds))` reproduces `ds` for
every `DataShape` whose leading dimensions are all `Fixed` and whose
measure is a record, scalar, or string measure.  As stated this fails
for the spec's own string scenario `10 * string[30]`: `to_numpy` maps a
fixed-length string measure to a bytes (`'A'`) or 4-byte-unicode numpy
dtype (`String.to_numpy_dtype`, lines 416-435), and `from_numpy` reads
a unicode dtype back as a `'U32'`-encoded string (lines 1152-1156), so
the default `'U8'` encoding does not survive.  Amended: the round trip
reproduces `ds` exactly when the measure is a built-in scalar,
`date`/`datetime`, a positive-length `'A'`- or `'U32'`-string, or a
non-empty record of such fields (`measureRT`); and a `'U8'`-string
measure comes back `'U32'`-encoded, everything else unchanged. -/
theorem c3_roundtrip_amended :
    (∀ (dims : List Nat) (m : Mono), dims ≠ [] → measureRT m →
      npRoundTrip (.dshape (dims.map Mono.fixed ++ [m])) =
        .ok (.dshape (dims.map Mono.fixed ++ [m]))) ∧
    (∀ (dims : List Nat) (n : Nat), dims ≠ [] → 0 < n →
      npRoundTrip (.dshape
          (dims.map Mono.fixed ++ [.strM (some (n : Int)) "U8"])) =
        .ok (.dshape
          (dims.map Mono.fixed ++ [.strM (some (n : Int)) "U32"]))) := by
  constructor
  · intro dims m hd hm
    obtain ⟨d, h1, h2, h3, h4⟩ := measureRT_bundle hm
    exact npRoundTrip_shape dims hd m m d h1 h2 h3 h4
  · intro dims n hd hn
    refine npRoundTrip_shape dims hd _ _ (.unicodeU n) ?_ ?_ rfl rfl
    · show (if ((n : Nat) : Int) = 0 then
          (.ok NpDtype.objectVlen : Except PyErr NpDtype)
        else if ((n : Nat) : Int) < 0 then .error .typeError
        else if ("U8" : String) = "A" then
          .ok (.bytesS ((n : Nat) : Int).toNat)
        else .ok (.unicodeU ((n : Nat) : Int).toNat)) = .ok (.unicodeU n)
      rw [if_neg (by omega), if_neg (by omega), if_neg (by decide)]
      simp
    · show mkString (.int ((4 * n : Nat) / 4 : Nat)) (.str "U32") =
        .ok (.strM (some (n : Int)) "U32")
      rw [show ((4 * n : Nat) / 4 : Nat) = n from by omega]
      rfl

/-- C3 witness: the amended round trip applied at the spec's §8
scenarios `5 * 5 * int32`, a record of scalars under one fixed
dimension, and the re-encoding part at `10 * string[30]` (default
`'U8'` encoding, back as `'U32'`). -/
theorem c3_roundtrip_amended_witness :
    npRoundTrip (.dshape [.fixed 5, .fixed 5, int32]) =
      .ok (.dshape [.fixed 5, .fixed 5, int32]) ∧
    npRoundTrip (.dshape [.fixed 2,
        .record [("x", int32), ("y", float64)]]) =
      .ok (.dshape [.fixed 2, .record [("x", int32), ("y", float64)]]) ∧
    npRoundTrip (.dshape [.fixed 10, .strM (some 30) "U8"]) =
      .ok (.dshape [.fixed 10, .strM (some 30) "U32"]) := by
  refine ⟨?_, ?_, ?_⟩
  · exact c3_roundtrip_amended.1 [5, 5] int32 (by decide)
      (Or.inl (Or.inl (by decide)))
  · refine c3_roundtrip_amended.1 [2] (.record [("x", int32), ("y", float64)])
      (by decide) (Or.inr ⟨[("x", int32), ("y", float64)], rfl, by decide, ?_⟩)
    intro f hf
    simp only [List.mem_cons, List.not_mem_nil, or_false] at hf
    rcases hf with rfl | rfl
    · exact Or.inl (by decide)
    · exact Or.inl (by decide)
  · exact c3_roundtrip_amended.2 [10] 30 (by decide) (by decide)

/-- C3 counterexample to the claim as stated: the spec's string scenario
`10 * string[30]` (i.e. `String(30)`, whose encoding defaults to
`'U8'`) round-trips to `10 * string[30, 'U32'] ≠ 10 * string[30]`; and
a dimension-less `DataShape(int32)` comes back as the bare measure
`int32`, not a `DataShape`. -/
theorem c3_roundtrip_counterexample :
    mkString (.int 30) .none = .ok (.strM (some 30) "U8") ∧
    npRoundTrip (.dshape [.fixed 10, .strM (some 30) "U8"]) =
      .ok (.dshape [.fixed 10, .strM (some 30) "U32"]) ∧
    Mono.dshape [.fixed 10, .strM (some 30) "U32"] ≠
      .dshape [.fixed 10, .strM (some 30) "U8"] ∧
    npRoundTrip (.dshape [int32]) = .ok int32 ∧
    int32 ≠ .dshape [int32] :=
  ⟨by decide, by decide, by decide, by decide, by decide⟩

/-- C4: the spec says constructing a `DataShape` under an
already-registered name fails with a duplicate-name error and leaves
the registry binding unchanged.  `Type.register` (lines 38-43) indeed
refuses to clobber, but `DataShape.__init__` bypasses it and writes
`self.__metaclass__._registry[name] = self` directly (line 497),
silently overwriting the binding: here the built-in binding of
`'int32'` is replaced by the new `DataShape(Fixed(5), int32)` without
any error.  The claim matches the code's own registry contract; the
constructor violates it. -/
theorem c4_named_datashape_overwrites_registry :
    lookupType builtinRegistry "int32" = .ok int32 ∧
    mkDataShapeReg builtinRegistry [.mono (.fixed 5), .mono int32]
        (some "int32") =
      .ok (.dshape [.fixed 5, int32],
        registrySet builtinRegistry "int32" (.dshape [.fixed 5, int32])) ∧
    lookupType
        (registrySet builtinRegistry "int32" (.dshape [.fixed 5, int32]))
        "int32" = .ok (.dshape [.fixed 5, int32]) ∧
    (Mono.dshape [.fixed 5, int32]) ≠ int32 ∧
    typeRegister builtinRegistry "int32" (.dshape [.fixed 5, int32]) =
      .error .typeError := by
  refine ⟨by decide, by decide, by decide, by decide, by decide⟩

/-- C6: constructing a `DataShape` whose laundered constituents contain
a `MEASURE`-kind node before the last position raises a construction
error (`TypeError`, lines 484-488), and one whose last laundered
constituent is a `DIMENSION`-kind node raises as well (lines 480-483);
no such `DataShape` is ever created, since the constructor returns the
error instead of a node. -/
theorem c6_kind_validation :
    ∀ (args : List DArg) (ps : List Mono),
      mapExcept (launder builtinRegistry) args = .ok ps →
      ((∃ p ∈ ps.dropLast, p.clsAttr = .kind .measure) →
        mkDataShape args = .error .typeError) ∧
      ((∃ lastP, ps.getLast? = some lastP ∧
          lastP.clsAttr = .kind .dimension) →
        mkDataShape args = .error .typeError) := by
  intro args ps hm
  by_cases hne : args = []
  · subst hne
    cases hm
    constructor
    · rintro ⟨p, hp, -⟩
      cases hp
    · rintro ⟨lastP, hl, -⟩
      cases hl
  · by_cases hstr : ∃ s, args = [.str s]
    · obtain ⟨s, rfl⟩ := hstr
      exact ⟨fun _ => rfl, fun _ => rfl⟩
    · push_neg at hstr
      have hdef := mkDataShape_default args hne hstr
      constructor
      · rintro ⟨p, hp, hcls⟩
        have herr : dataShapeKindCheck ps = .error .typeError :=
          kindCheck_error_bad_dim hp
            (by rw [Mono.getClsOr, hcls]; decide)
        rw [hdef, hm, except_bind_ok, herr, except_bind_error]
      · rintro ⟨lastP, hl, hcls⟩
        have herr : dataShapeKindCheck ps = .error .typeError :=
          kindCheck_error_bad_last hl
            (by rw [Mono.getClsOr, hcls]; decide)
        rw [hdef, hm, except_bind_ok, herr, except_bind_error]

/-- C6 witness: `DataShape(int32, int32)` (measure before last) and
`DataShape(Fixed(5), Fixed(3))` (dimension in last position) both raise. -/
theorem c6_kind_validation_witness :
    mkDataShape [.mono int32, .mono int32] = .error .typeError ∧
    mkDataShape [.mono (.fixed 5), .mono (.fixed 3)] = .error .typeError :=
  ⟨(c6_kind_validation [.mono int32, .mono int32] [int32, int32]
      (by decide)).1 ⟨int32, by decide, by decide⟩,
   (c6_kind_validation [.mono (.fixed 5), .mono (.fixed 3)]
      [.fixed 5, .fixed 3] (by decide)).2 ⟨.fixed 3, by decide, by decide⟩⟩

/-- C7: `subarray(ds, k)` (for a non-negative count `k`) raises
`IndexError` exactly when `k` exceeds the number of leading dimensions —
more than `len(parameters) - 1` for a well-formed composite, any
`k >= 1` for a bare measure — and otherwise removes the first `k`
dimensions (`subarray(m, 0)` of a bare measure returns `m` itself); on
`1 * 2 * 3 * int32`, removing 1 yields `2 * 3 * int32` and removing 2
yields `3 * int32`. -/
theorem c7_subarray_bounds_and_drop :
    (∀ ps : List Mono, (∀ p ∈ ps, launderMono p = p) →
      dataShapeKindCheck ps = .ok () → ∀ k : Int, 0 ≤ k →
      ((ps.length : Int) - 1 < k →
        subarray (.dshape ps) k = .error .indexError) ∧
      (k ≤ (ps.length : Int) - 1 →
        subarray (.dshape ps) k = .ok (.dshape (ps.drop k.toNat)))) ∧
    (∀ m : Mono, (∀ qs, m ≠ .dshape qs) → ∀ k : Int,
      (1 ≤ k → subarray m k = .error .indexError) ∧
      subarray m 0 = .ok m) ∧
    subarray (.dshape [.fixed 1, .fixed 2, .fixed 3, int32]) 1 =
      .ok (.dshape [.fixed 2, .fixed 3, int32]) ∧
    subarray (.dshape [.fixed 1, .fixed 2, .fixed 3, int32]) 2 =
      .ok (.dshape [.fixed 3, int32]) := by
  refine ⟨?_, ?_, by decide, by decide⟩
  · intro ps h1 h2 k hk0
    constructor
    · intro hk
      exact subarray_err (by omega)
    · intro hk
      exact subarray_ok h1 h2 hk0 (by omega)
  · intro m hm k
    constructor
    · intro hk
      rw [subarray_nondshape m hm, monoSubarray, if_pos (by omega)]
    · rw [subarray_nondshape m hm, monoSubarray, if_neg (by omega)]

/-- C7 witness: the general parts applied at `1 * 2 * 3 * int32` with
`k = 4` (out of range) and `k = 2`, and at the bare measure `int32`
with `k = 1` and `k = 0`. -/
theorem c7_subarray_bounds_and_drop_witness :
    subarray (.dshape [.fixed 1, .fixed 2, .fixed 3, int32]) 4 =
      .error .indexError ∧
    subarray (.dshape [.fixed 1, .fixed 2, .fixed 3, int32]) 2 =
      .ok (.dshape [.fixed 3, int32]) ∧
    subarray int32 1 = .error .indexError ∧
    subarray int32 0 = .ok int32 :=
  ⟨((c7_subarray_bounds_and_drop.1 [.fixed 1, .fixed 2, .fixed 3, int32]
      (by decide) (by decide) 4 (by decide)).1 (by decide)),
   ((c7_subarray_bounds_and_drop.1 [.fixed 1, .fixed 2, .fixed 3, int32]
      (by decide) (by decide) 2 (by decide)).2 (by decide)),
   ((c7_subarray_bounds_and_drop.2.1 int32 (by intro qs h; cases h) 1).1
      (by decide)),
   ((c7_subarray_bounds_and_drop.2.1 int32 (by intro qs h; cases h) 0).2)⟩

/-- C9 (amended): every observable `DataShape` — built directly by the
constructor or by `subarray` — has at least **1** laundered constituent,
the last of measure kind and all earlier ones of dimension kind; the
spec's stronger bound of at least 2 does not hold (see the
counterexample), since `DataShape(int32)` and
`subarray(ds, ndim)` legitimately produce single-constituent,
measure-only composites. -/
theorem c9_composite_at_least_one :
    (∀ (args : List DArg) (ps : List Mono),
      mkDataShape args = .ok (.dshape ps) →
      1 ≤ ps.length ∧ dataShapeKindCheck ps = .ok ()) ∧
    (∀ (qs ps : List Mono) (k : Int),
      subarray (.dshape qs) k = .ok (.dshape ps) →
      1 ≤ ps.length ∧ dataShapeKindCheck ps = .ok ()) := by
  have base : ∀ (args : List DArg) (ps : List Mono),
      mkDataShape args = .ok (.dshape ps) →
      1 ≤ ps.length ∧ dataShapeKindCheck ps = .ok () := by
    intro args ps h
    obtain ⟨ps', heq, hlen, hkc⟩ := mkDataShape_ok_elim h
    cases heq
    exact ⟨hlen, hkc⟩
  refine ⟨base, ?_⟩
  intro qs ps k h
  have h' : dsSubarray qs k = .ok (.dshape ps) := h
  unfold dsSubarray at h'
  split at h'
  · cases h'
  · split at h'
    · split at h'
      · cases h'
      · exact base _ _ h'
    · exact base _ _ h'

/-- C9 witness: the constructor part applied at `DataShape(5, int32)`
and the subarray part at `subarray(1 * 2 * 3 * int32, 2)`. -/
theorem c9_composite_at_least_one_witness :
    (1 ≤ ([Mono.fixed 5, int32] : List Mono).length ∧
      dataShapeKindCheck [Mono.fixed 5, int32] = .ok ()) ∧
    (1 ≤ ([Mono.fixed 3, int32] : List Mono).length ∧
      dataShapeKindCheck [Mono.fixed 3, int32] = .ok ()) :=
  ⟨c9_composite_at_least_one.1 [.int 5, .str "int32"] [.fixed 5, int32]
     (by decide),
   c9_composite_at_least_one.2 [.fixed 1, .fixed 2, .fixed 3, int32]
     [.fixed 3, int32] 2 (by decide)⟩

/-- C9 counterexample: the claim as stated — at least 2 constituents —
is false: `DataShape(int32)` succeeds with exactly one laundered
constituent, and `subarray('1 * 2 * 3 * int32', 3)` also returns a
single-constituent composite. -/
theorem c9_composite_at_least_one_counterexample :
    mkDataShape [.mono int32] = .ok (.dshape [int32]) ∧
    ¬ 2 ≤ ([int32] : List Mono).length ∧
    subarray (.dshape [.fixed 1, .fixed 2, .fixed 3, int32]) 3 =
      .ok (.dshape [int32]) := by
  refine ⟨by decide, by decide, by decide⟩

/-- C5 (amended): hash consistency `a == b → hash(a) == hash(b)` holds
for every pair of equal nodes of the hierarchy (under any assignment of
the implementation-dependent type-object/string/None hashes), and for
`IntegerConstant`/`StringConstant` against their bare literals (their
`__hash__` is `hash(self.val)`); two `Record`s with identical fields in
different order are unequal; `Fixed(5) != "5"`.  The cross-type pair
`Fixed(5) == 5` is excluded: `Fixed` keeps `Mono.__hash__` (line 772),
which hashes `(type(self), (5,))`, and nothing ties that tuple hash to
`hash(5) = 5` — see the counterexample. -/
theorem c5_eq_implies_hash_amended :
    (∀ (env : HashEnv) (a b : Mono),
      pyEqMono a b = .ok true → monoHash env a = monoHash env b) ∧
    (∀ (env : HashEnv) (n : Int),
      pyEqVal (.mono (.iconst n)) (.int n) = .ok true ∧
      valHash env (.mono (.iconst n)) = valHash env (.int n)) ∧
    (∀ (env : HashEnv) (s : String),
      pyEqVal (.mono (.sconst s)) (.str s) = .ok true ∧
      valHash env (.mono (.sconst s)) = valHash env (.str s)) ∧
    pyEqMono (.record [("x", int32), ("y", int32)])
      (.record [("y", int32), ("x", int32)]) = .ok false ∧
    pyNeVal (.mono (.fixed 5)) (.str "5") = .ok true := by
  refine ⟨?_, ?_, ?_, by decide, by decide⟩
  · intro env a b h
    rw [pyEqMono_sound a b h]
  · intro env n
    exact ⟨congrArg Except.ok (by simp), rfl⟩
  · intro env s
    exact ⟨congrArg Except.ok (by simp), rfl⟩

/-- C5 witness: the general parts applied at a concrete hash
environment and concrete nodes (`Record` equality for the structural
part, `IntegerConstant(7) == 7` and `StringConstant("a") == "a"` for the
literal parts). -/
theorem c5_eq_implies_hash_amended_witness :
    monoHash ⟨fun _ => 1, fun _ => 2, 3⟩
        (.record [("x", int32), ("y", int32)]) =
      monoHash ⟨fun _ => 1, fun _ => 2, 3⟩
        (.record [("x", int32), ("y", int32)]) ∧
    (pyEqVal (.mono (.iconst 7)) (.int 7) = .ok true ∧
      valHash ⟨fun _ => 1, fun _ => 2, 3⟩ (.mono (.iconst 7)) =
        valHash ⟨fun _ => 1, fun _ => 2, 3⟩ (.int 7)) ∧
    (pyEqVal (.mono (.sconst "a")) (.str "a") = .ok true ∧
      valHash ⟨fun _ => 1, fun _ => 2, 3⟩ (.mono (.sconst "a")) =
        valHash ⟨fun _ => 1, fun _ => 2, 3⟩ (.str "a")) :=
  ⟨c5_eq_implies_hash_amended.1 ⟨fun _ => 1, fun _ => 2, 3⟩
     (.record [("x", int32), ("y", int32)])
     (.record [("x", int32), ("y", int32)]) (by decide),
   c5_eq_implies_hash_amended.2.1 ⟨fun _ => 1, fun _ => 2, 3⟩ 7,
   c5_eq_implies_hash_amended.2.2.1 ⟨fun _ => 1, fun _ => 2, 3⟩ "a"⟩

/-- C5 counterexample: the claim as stated fails on the cross-type pair
it itself cites: `Fixed(5) == 5` holds, yet with the type-object hash of
`Fixed` at (the possible address-hash value) `0` and CPython's tuple
hash, `hash(Fixed(5)) = hash((Fixed, (5,)))` is `11309093387996800319`,
not `hash(5) = 5` — the code guarantees no relation between the two, so
`a == b` does not imply `hash(a) == hash(b)`. -/
theorem c5_eq_implies_hash_counterexample :
    pyEqVal (.mono (.fixed 5)) (.int 5) = .ok true ∧
    valHash ⟨fun _ => 0, fun _ => 0, 0⟩ (.mono (.fixed 5)) =
      11309093387996800319 ∧
    valHash ⟨fun _ => 0, fun _ => 0, 0⟩ (.int 5) = 5 ∧
    valHash ⟨fun _ => 0, fun _ => 0, 0⟩ (.mono (.fixed 5)) ≠
      valHash ⟨fun _ => 0, fun _ => 0, 0⟩ (.int 5) :=
  ⟨by decide, by decide, by decide, by decide⟩

/-- C8: `subshape` with a slice index on a leading dimension: on a
`Fixed(d)` head the resulting leading count is `stop' - start'` with
`stop' = index.stop or int(d)` and `start' = index.start or 0`
(Python `or`: `None` and `0` both fall back), adjusted to
`ceil(count / step)` when a step is given, multiplied onto
`subarray(1)`; a `Var` head with an explicit non-zero stop gets the same
count with `stop' = index.stop`; an unbounded slice (`stop is None`) on
a `Var` head instead yields a `Var`-dimensioned result.  In particular
`(5 * 3 * float32).subshape[2:] == 3 * 3 * float32` and
`(5 * 3 * float32).subshape[::2] == 3 * 3 * float32`. -/
theorem c8_subshape_slice :
    (∀ (d : Nat) (rest : List Mono) (start stop step : Option Int),
      (∀ p ∈ Mono.fixed d :: rest, launderMono p = p) →
      dataShapeKindCheck (.fixed d :: rest) = .ok () →
      step ≠ some 0 →
      0 ≤ ceilStep (pyOrInt stop (d : Int) - pyOrInt start 0) step →
      dsSubshape (.dshape (.fixed d :: rest)) (.slice start stop step) =
        .ok (.dshape (.fixed
          (ceilStep (pyOrInt stop (d : Int) - pyOrInt start 0) step).toNat
          :: rest))) ∧
    (∀ (rest : List Mono) (start : Option Int) (n : Int)
        (step : Option Int),
      (∀ p ∈ Mono.var :: rest, launderMono p = p) →
      dataShapeKindCheck (.var :: rest) = .ok () →
      n ≠ 0 → step ≠ some 0 →
      0 ≤ ceilStep (n - pyOrInt start 0) step →
      dsSubshape (.dshape (.var :: rest)) (.slice start (some n) step) =
        .ok (.dshape (.fixed (ceilStep (n - pyOrInt start 0) step).toNat
          :: rest))) ∧
    (∀ (rest : List Mono) (start step : Option Int),
      (∀ p ∈ Mono.var :: rest, launderMono p = p) →
      dataShapeKindCheck (.var :: rest) = .ok () →
      dsSubshape (.dshape (.var :: rest)) (.slice start Option.none step) =
        .ok (.dshape (.var :: rest))) ∧
    dsSubshape (.dshape [.fixed 5, .fixed 3, float32])
        (.slice (some 2) Option.none Option.none) =
      .ok (.dshape [.fixed 3, .fixed 3, float32]) ∧
    dsSubshape (.dshape [.fixed 5, .fixed 3, float32])
        (.slice Option.none Option.none (some 2)) =
      .ok (.dshape [.fixed 3, .fixed 3, float32]) := by
  refine ⟨?_, ?_, ?_, by decide, by decide⟩
  · intro d rest start stop step hL hK hstep hpos
    have hrest : rest ≠ [] := rest_ne_nil_of_dim_head
      (by intro h; exact Kind.noConfusion (Option.some.inj h)) hK
    have hLr : ∀ p ∈ rest, launderMono p = p :=
      fun p hp => hL p (List.mem_cons_of_mem _ hp)
    show (do
      let startv := pyOrInt start 0
      let stopv ← sliceStopValue (.fixed d) stop
      let count := stopv - startv
      let count ← sliceStepAdjust count step
      let sub ← subarray (.dshape (.fixed d :: rest)) 1
      intMul count sub) = _
    rw [stopv_fixed, except_bind_ok]
    show (do
      let count ← sliceStepAdjust (pyOrInt stop (d : Int) - pyOrInt start 0)
        step
      let sub ← subarray (.dshape (.fixed d :: rest)) 1
      intMul count sub) = _
    rw [stepv_eq _ hstep, except_bind_ok]
    have hsub : subarray (.dshape (.fixed d :: rest)) 1 =
        .ok (.dshape rest) := by
      have hlen : (1 : Int) < ((Mono.fixed d :: rest).length : Int) := by
        have := List.length_pos_iff_ne_nil.mpr hrest
        simp only [List.length_cons]
        omega
      simpa using subarray_ok hL hK (by omega) hlen
    rw [hsub, except_bind_ok]
    exact intMul_ok _ hpos rest hrest hLr
      (kindCheck_replace_head hrest hK rfl)
  · intro rest start n step hL hK hn hstep hpos
    have hrest : rest ≠ [] := rest_ne_nil_of_dim_head
      (by intro h; exact Kind.noConfusion (Option.some.inj h)) hK
    have hLr : ∀ p ∈ rest, launderMono p = p :=
      fun p hp => hL p (List.mem_cons_of_mem _ hp)
    show (do
      let startv := pyOrInt start 0
      let stopv ← sliceStopValue Mono.var (some n)
      let count := stopv - startv
      let count ← sliceStepAdjust count step
      let sub ← subarray (.dshape (.var :: rest)) 1
      intMul count sub) = _
    rw [stopv_explicit _ hn, except_bind_ok]
    show (do
      let count ← sliceStepAdjust (n - pyOrInt start 0) step
      let sub ← subarray (.dshape (.var :: rest)) 1
      intMul count sub) = _
    rw [stepv_eq _ hstep, except_bind_ok]
    have hsub : subarray (.dshape (.var :: rest)) 1 =
        .ok (.dshape rest) := by
      have hlen : (1 : Int) < ((Mono.var :: rest).length : Int) := by
        have := List.length_pos_iff_ne_nil.mpr hrest
        simp only [List.length_cons]
        omega
      simpa using subarray_ok hL hK (by omega) hlen
    rw [hsub, except_bind_ok]
    exact intMul_ok _ hpos rest hrest hLr
      (kindCheck_replace_head hrest hK rfl)
  · intro rest start step hL hK
    have hrest : rest ≠ [] := rest_ne_nil_of_dim_head
      (by intro h; exact Kind.noConfusion (Option.some.inj h)) hK
    show (do
      let sub ← subarray (.dshape (.var :: rest)) 1
      monoMul Mono.var sub) = _
    have hsub : subarray (.dshape (.var :: rest)) 1 =
        .ok (.dshape rest) := by
      have hlen : (1 : Int) < ((Mono.var :: rest).length : Int) := by
        have := List.length_pos_iff_ne_nil.mpr hrest
        simp only [List.length_cons]
        omega
      simpa using subarray_ok hL hK (by omega) hlen
    rw [hsub, except_bind_ok]
    show mkDataShape (.mono .var :: rest.map .mono) = _
    rw [← List.map_cons]
    exact mkDataShape_mono_eq _ (by simp)
      (by
        intro p hp
        rcases List.mem_cons.mp hp with rfl | hp
        · rfl
        · exact hL p (List.mem_cons_of_mem _ hp))
      hK

/-- C8 witness: the three general parts applied at `5 * 3 * float32`
with `[2:]`, at `var * int32` with `[1:4:2]`, and at `var * int32` with
`[:]`. -/
theorem c8_subshape_slice_witness :
    dsSubshape (.dshape [.fixed 5, .fixed 3, float32])
        (.slice (some 2) Option.none Option.none) =
      .ok (.dshape [.fixed 3, .fixed 3, float32]) ∧
    dsSubshape (.dshape [var, int32]) (.slice (some 1) (some 4) (some 2)) =
      .ok (.dshape [.fixed 2, int32]) ∧
    dsSubshape (.dshape [var, int32])
        (.slice Option.none Option.none Option.none) =
      .ok (.dshape [var, int32]) :=
  ⟨c8_subshape_slice.1 5 [.fixed 3, float32] (some 2) Option.none
     Option.none (by decide) (by decide) (by decide) (by decide),
   c8_subshape_slice.2.1 [int32] (some 1) 4 (some 2) (by decide)
     (by decide) (by decide) (by decide) (by decide),
   c8_subshape_slice.2.2.1 [int32] Option.none Option.none (by decide)
     (by decide)⟩

/-- C10: comparing an `IntegerConstant` (`StringConstant`) against
anything that is neither the matching bare literal nor a constant of
the same class raises `TypeError` rather than returning `False`
(lines 209-215, 237-243); in particular `IntegerConstant(5) == "5"` is
an error, not `False`, while comparisons against the matching literal
evaluate normally. -/
theorem c10_constant_eq_raises :
    (∀ (n : Int) (s : String),
      pyEqVal (.mono (.iconst n)) (.str s) = .error .typeError) ∧
    (∀ (n : Int) (m : Mono), (∀ v, m ≠ .iconst v) →
      pyEqMono (.iconst n) m = .error .typeError) ∧
    (∀ (s : String) (n : Int),
      pyEqVal (.mono (.sconst s)) (.int n) = .error .typeError) ∧
    (∀ (s : String) (m : Mono), (∀ v, m ≠ .sconst v) →
      pyEqMono (.sconst s) m = .error .typeError) ∧
    (∀ n v : Int,
      pyEqVal (.mono (.iconst n)) (.int v) = .ok (decide (n = v))) ∧
    (∀ n v : Int,
      pyEqMono (.iconst n) (.iconst v) = .ok (decide (n = v))) := by
  refine ⟨fun _ _ => rfl, ?_, fun _ _ => rfl, ?_, fun _ _ => rfl,
    fun _ _ => rfl⟩
  · intro n m hm
    cases m <;> first | exact absurd rfl (hm _) | rfl
  · intro s m hm
    cases m <;> first | exact absurd rfl (hm _) | rfl

/-- C10 witness: `IntegerConstant(5) == "5"` raises; so does comparing
it to a non-constant node; `IntegerConstant(5) == 5` is `True`. -/
theorem c10_constant_eq_raises_witness :
    pyEqVal (.mono (.iconst 5)) (.str "5") = .error .typeError ∧
    pyEqMono (.iconst 5) (.fixed 5) = .error .typeError ∧
    pyEqVal (.mono (.iconst 5)) (.int 5) = .ok true :=
  ⟨c10_constant_eq_raises.1 5 "5",
   c10_constant_eq_raises.2.1 5 (.fixed 5) (by intro v h; cases h),
   c10_constant_eq_raises.2.2.2.2.1 5 5⟩

end Datashape
